import Mathlib

/-
  Verification of the cxio/archives document store (Go sources under
  storage/fss/document.go, storage/fss/fs.go, storage/docdef.go, and the
  legacy filesystem driver in package fs).

  Shallow embedding conventions:
  * []byte is modelled as List Nat (one entry per byte).
  * The on-disk state is an explicit FsState: an association list from full
    path strings to contents plus the set of existing directories, and a set
    of paths on which os.WriteFile fails (environmental fault injection).
    Paths are Go style, "/" separated.
  * filepath.Join is modelled by goJoin, which agrees with Go for the clean,
    ".."/"."-free, slash-free components produced by this program (and for a
    root directory of "", "." or a plain name).  Strings are treated at the
    character level; the program only ever handles ASCII identifiers, years
    and language tags, where Go byte indexing and Lean character indexing
    agree.
  * time.Now().Format("2006") and json.Unmarshal are environment inputs,
    collected in the Env structure.  A parsed DocumentMeta value is opaque to
    every claim, so the unmarshal function is an arbitrary partial function
    from bytes.
  * Errors are modelled structurally: storage.DocError keeps its operation
    tag and message, fmt.Errorf("...: %w", err) wrapping keeps the message
    and the inner error.  Log statements have no observable effect and are
    dropped.
-/

namespace Archives

/-- Bytes models Go []byte. -/
def Bytes := List Nat
deriving DecidableEq, Inhabited

/-! ### String helpers (character-level models of the Go string functions) -/

/-- listPfx models bytes-level HasPrefix on character lists. -/
def listPfx : List Char → List Char → Bool
  | [], _ => true
  | _ :: _, [] => false
  | a :: as, b :: bs => a == b && listPfx as bs

/-- strPfx a b is true when a is a leading piece of b (strings.HasPrefix b a). -/
def strPfx (a b : String) : Bool :=
  listPfx a.data b.data

/-- goLowerChar models the ASCII case of unicode.ToLower used by strings.ToLower. -/
def goLowerChar (c : Char) : Char :=
  if 'A' ≤ c ∧ c ≤ 'Z' then Char.ofNat (c.toNat + 32) else c

/-- goUpperChar models the ASCII case of unicode.ToUpper used by strings.ToUpper. -/
def goUpperChar (c : Char) : Char :=
  if 'a' ≤ c ∧ c ≤ 'z' then Char.ofNat (c.toNat - 32) else c

/-- goToLower models strings.ToLower on ASCII strings. -/
def goToLower (s : String) : String :=
  String.mk (s.data.map goLowerChar)

/-- goToUpper models strings.ToUpper on ASCII strings. -/
def goToUpper (s : String) : String :=
  String.mk (s.data.map goUpperChar)

/-- normalizeLang models the helper of document.go:
strings.ToLower(strings.ReplaceAll(lang, "-", "_")), with the empty-string
short circuit.  ReplaceAll with one-character pattern and replacement is a
character map. -/
def normalizeLang (lang : String) : String :=
  if lang = "" then ""
  else String.mk ((lang.data.map (fun c => if c = '-' then '_' else c)).map goLowerChar)

/-- digitVal gives the value of a decimal digit character. -/
def digitVal (c : Char) : Option Nat :=
  if '0' ≤ c ∧ c ≤ '9' then some (c.toNat - 48) else none

/-- digitsVal parses a nonempty all-decimal-digit character list. -/
def digitsVal : List Char → Option Nat
  | [] => none
  | [c] => digitVal c
  | c :: rest => match digitVal c, digitsVal rest with
    | some d, some v => some (d * 10 ^ rest.length + v)
    | _, _ => none

/-- goAtoi models strconv.Atoi: optional sign, then one or more decimal
digits; anything else is an error (modelled as none).  Range overflow never
occurs for the year strings this program handles. -/
def goAtoi (s : String) : Option Int :=
  match s.data with
  | '-' :: rest => (digitsVal rest).map (fun v => -(v : Int))
  | '+' :: rest => (digitsVal rest).map (fun v => (v : Int))
  | l => (digitsVal l).map (fun v => (v : Int))

/-- goIsHexDigit recognises the digits accepted by strconv.ParseInt base 16. -/
def goIsHexDigit (c : Char) : Bool :=
  ('0' ≤ c && c ≤ '9') || ('a' ≤ c && c ≤ 'f') || ('A' ≤ c && c ≤ 'F')

/-- hexDigitVal gives the value of one hexadecimal digit character. -/
def hexDigitVal (c : Char) : Nat :=
  if '0' ≤ c ∧ c ≤ '9' then c.toNat - 48
  else if 'a' ≤ c ∧ c ≤ 'f' then c.toNat - 87
  else if 'A' ≤ c ∧ c ≤ 'F' then c.toNat - 55
  else 0

/-- hexVal folds a hexadecimal digit list into its value. -/
def hexVal (l : List Char) : Nat :=
  l.foldl (fun acc c => acc * 16 + hexDigitVal c) 0

/-- goParseIntHex16 models the value returned by strconv.ParseInt(s, 16, 0):
the parsed value on success and 0 on a syntax error (document.go discards the
error and uses the value either way). -/
def goParseIntHex16 (s : String) : Int :=
  match s.data with
  | '-' :: rest => if rest ≠ [] ∧ rest.all goIsHexDigit then -(hexVal rest : Int) else 0
  | '+' :: rest => if rest ≠ [] ∧ rest.all goIsHexDigit then (hexVal rest : Int) else 0
  | l => if l ≠ [] ∧ l.all goIsHexDigit then (hexVal l : Int) else 0

/-- padZeros left-pads a digit string with zeros up to width w. -/
def padZeros (w : Nat) (s : String) : String :=
  if s.length ≥ w then s else String.mk (List.replicate (w - s.length) '0') ++ s

/-- sprintf03 models fmt.Sprintf("%03d", v): zero padding to minimum width 3,
the sign counting toward the width. -/
def sprintf03 (v : Int) : String :=
  if v < 0 then "-" ++ padZeros 2 (toString (-v)) else padZeros 3 (toString v)

/-! ### Path helpers -/

/-- goJoin models filepath.Join of two elements for the clean components this
program produces: empty elements are dropped and a "." root disappears under
Clean.  No argument of the modelled program contains "..", "//" or a "."
segment inside a longer path. -/
def goJoin (a b : String) : String :=
  if a = "" then b
  else if b = "" then a
  else if a = "." then b
  else a ++ "/" ++ b

/-- splitSlashAux splits a character list at every slash. -/
def splitSlashAux : List Char → List Char → List String
  | [], acc => [String.mk acc.reverse]
  | c :: rest, acc =>
    if c = '/' then String.mk acc.reverse :: splitSlashAux rest []
    else splitSlashAux rest (c :: acc)

/-- splitSlash models strings.Split(s, "/"). -/
def splitSlash (s : String) : List String :=
  splitSlashAux s.data []

/-- joinSegs rebuilds a path from segments with "/" separators. -/
def joinSegs : List String → String
  | [] => ""
  | [s] => s
  | s :: rest => s ++ "/" ++ joinSegs rest

/-- goDir models filepath.Dir for the slash-separated relative paths used
here: everything before the last separator, or "." when there is none. -/
def goDir (p : String) : String :=
  let segs := splitSlash p
  if segs.length ≤ 1 then "." else joinSegs segs.dropLast

/-- prefixesAux accumulates the slash-joined ancestor chain of a segment
list. -/
def prefixesAux : List String → String → List String
  | [], _ => []
  | s :: rest, cur =>
    let cur' := if cur = "" then s else cur ++ "/" ++ s
    cur' :: prefixesAux rest cur'

/-- pathAncestors lists a path and all its ancestors, shortest first; these
are the directories os.MkdirAll(p) guarantees to exist. -/
def pathAncestors (p : String) : List String :=
  prefixesAux (splitSlash p) ""

/-! ### Error model (storage/docdef.go and fmt.Errorf wrapping) -/

/-- OpType mirrors storage.OpType. -/
inductive OpType where
  | store
  | get
  | delete
  | head
deriving DecidableEq, Repr

/-- Err models Go error values as this program builds them: storage.DocError
with operation and message, an opaque underlying error with a message, or an
fmt.Errorf("...: %w", err) wrapper. -/
inductive Err where
  | doc : OpType → String → Err
  | other : String → Err
  | wrap : String → Err → Err
deriving DecidableEq, Repr

/-- strContains models strings.Contains for ASCII strings. -/
def strContains (s sub : String) : Bool :=
  (List.range (s.data.length + 1)).any (fun i => listPfx sub.data (s.data.drop i))

/-- Err.isNotFound mirrors how the HTTP layer classifies errors:
strings.Contains(err.Error(), "not found"), where Error() concatenates the
wrap messages and the root message. -/
def Err.isNotFound : Err → Bool
  | .doc _ m => strContains m "not found"
  | .other m => strContains m "not found"
  | .wrap m e => strContains m "not found" || e.isNotFound

/-! ### The on-disk state and the OS primitives used by fs.go -/

/-- FsState is the observable state of the local disk: regular files with
their contents, existing directories, and the set of full paths on which
os.WriteFile fails (a model of I/O faults injected by the environment;
removals and directory creations are assumed fault free because no claim
depends on their failure). -/
structure FsState where
  files : List (String × Bytes)
  dirs : List String
  wfail : List String
deriving DecidableEq

/-- statFound is true when os.Stat succeeds: the path is a file or a
directory. -/
def statFound (σ : FsState) (p : String) : Bool :=
  (σ.files.lookup p).isSome || σ.dirs.contains p

/-- hasFilePfx is true when a strict ancestor of p exists as a regular file,
in which case os.Stat fails with ENOTDIR rather than ENOENT. -/
def hasFilePfx (σ : FsState) (p : String) : Bool :=
  σ.files.any (fun e => strPfx (e.1 ++ "/") p)

/-- osExists models the Exists method of fss.FileSystem applied to a full
path q: err == nil || !os.IsNotExist(err).  The stat error is ENOENT (and
IsNotExist holds) exactly when neither the path nor one of its file
ancestors exists; an ENOTDIR failure makes Exists answer true. -/
def osExists (σ : FsState) (q : String) : Bool :=
  statFound σ q || hasFilePfx σ q

/-- hasChild is true when anything (file or directory) lives strictly below
directory q; os.Remove on such a directory fails with ENOTEMPTY. -/
def hasChild (σ : FsState) (q : String) : Bool :=
  σ.files.any (fun e => strPfx (q ++ "/") e.1) || σ.dirs.any (fun d => strPfx (q ++ "/") d)

/-- insertDirs adds every directory of the list that is not already
present. -/
def insertDirs (dirs : List String) : List String → List String
  | [] => dirs
  | d :: rest => insertDirs (if dirs.contains d then dirs else dirs ++ [d]) rest

/-- mkdirAll models os.MkdirAll d: it creates d and all its ancestors and
fails only when some ancestor (or d itself) already exists as a regular
file.  A "." or empty argument is a successful no-op. -/
def mkdirAll (σ : FsState) (d : String) : Option FsState :=
  if d = "." ∨ d = "" then some σ
  else if (pathAncestors d).any (fun a => (σ.files.lookup a).isSome) then none
  else some { σ with dirs := insertDirs σ.dirs (pathAncestors d) }

/-- upsertFile models os.WriteFile creating or truncating the target. -/
def upsertFile (files : List (String × Bytes)) (k : String) (v : Bytes) :
    List (String × Bytes) :=
  (k, v) :: files.filter (fun e => !(e.1 == k))

/-- dropFile removes the entry at key k. -/
def dropFile (files : List (String × Bytes)) (k : String) : List (String × Bytes) :=
  files.filter (fun e => !(e.1 == k))

/-! ### fss.FileSystem (storage/fss/fs.go)

The adapter carries its rootDir and resolves every incoming relative path
with filePath, i.e. filepath.Join(rootDir, path).  Note that Read, Remove
and List overwrite their local variable with the already-rooted path and
then call Exists on it, so their existence pre-check roots the path a second
time; this is modelled exactly as written. -/

/-- filePath models (fs *FileSystem).filePath. -/
def filePath (root p : String) : String :=
  goJoin root p

/-- fssExists models (fs *FileSystem).Exists for a relative path p. -/
def fssExists (root : String) (σ : FsState) (p : String) : Bool :=
  osExists σ (filePath root p)

/-- fssWrite models (fs *FileSystem).Write: MkdirAll on the parent directory
followed by os.WriteFile; on error the state reached so far is kept (a
MkdirAll that ran before a failing write leaves its directories behind). -/
def fssWrite (root : String) (σ : FsState) (p : String) (data : Bytes) :
    FsState × Option Err :=
  let full := filePath root p
  match mkdirAll σ (goDir full) with
  | none => (σ, some (.wrap "failed to create directory: " (.other "mkdir")))
  | some σ₁ =>
    if σ₁.dirs.contains full || σ₁.wfail.contains full then
      (σ₁, some (.wrap "failed to write file: " (.other "write")))
    else
      ({ σ₁ with files := upsertFile σ₁.files full data }, none)

/-- fssRead models (fs *FileSystem).Read.  The source first replaces path by
filePath(path) and then calls fs.Exists(path) on the replaced value, so the
pre-check stats filePath(filePath(p)). -/
def fssRead (root : String) (σ : FsState) (p : String) : Except Err Bytes :=
  let full := filePath root p
  if !(fssExists root σ full) then
    .error (.doc .get ("file not found: " ++ full))
  else
    match σ.files.lookup full with
    | some d => .ok d
    | none => .error (.wrap "failed to read file: " (.other "read"))

/-- fssRemove models (fs *FileSystem).Remove, with the same doubled
pre-check as Read; os.Remove removes a file, or an empty directory, and
fails on a non-empty directory. -/
def fssRemove (root : String) (σ : FsState) (p : String) : FsState × Option Err :=
  let full := filePath root p
  if !(fssExists root σ full) then
    (σ, some (.doc .delete ("file not found: " ++ full)))
  else if (σ.files.lookup full).isSome then
    ({ σ with files := dropFile σ.files full }, none)
  else if σ.dirs.contains full then
    if hasChild σ full then (σ, some (.wrap "failed to remove file: " (.other "notempty")))
    else ({ σ with dirs := σ.dirs.filter (fun d => !(d == full)) }, none)
  else
    (σ, some (.wrap "failed to remove file: " (.other "enoent")))

/-- childName extracts the entry name when q lies directly inside directory
dir. -/
def childName (dir q : String) : Option String :=
  if strPfx (dir ++ "/") q then
    let rest := String.mk (q.data.drop (dir.data.length + 1))
    if rest = "" ∨ rest.data.contains '/' then none else some rest
  else none

/-- fssList models (fs *FileSystem).List, with the doubled pre-check; it
returns the names of the regular files directly inside the directory
(os.ReadDir sorts names, but no modelled property depends on the order, so
the storage order of the state is kept). -/
def fssList (root : String) (σ : FsState) (p : String) : Except Err (List String) :=
  let full := filePath root p
  if !(fssExists root σ full) then
    .error (.doc .head ("directory not found: " ++ full))
  else if σ.dirs.contains full then
    .ok (σ.files.filterMap (fun e => childName full e.1))
  else
    .error (.wrap "failed to read directory: " (.other "readdir"))

/-! ### Environment inputs -/

/-- Env packages the two environment functions the store consults:
time.Now().Format("2006"), and json.Unmarshal into a fss.DocumentMeta.  The
parsed metadata value is opaque to every verified property, so a successful
parse is represented by an arbitrary value chosen by the unmarshal
function (none models a parse error). -/
structure Env where
  now : String
  unmarshal : Bytes → Option Bytes

/-- Metaer models a storage.DocumentMetaer argument as the store observes
it: only its Marshal method is ever called, which either yields the encoded
bytes or an error. -/
structure Metaer where
  marshal : Option Bytes
deriving DecidableEq

/-! ### DocumentStore (storage/fss/document.go) -/

/-- DocumentPaths mirrors the DocumentPaths struct. -/
structure DocumentPaths where
  DirPath : String
  DataPath : String
  MetaPath : String
deriving DecidableEq, Repr

/-- calculatePaths models (ds *DocumentStore).calculatePaths: the first three
byte pairs of the id shard the directory tree as 0x<b1>/<B2>/<b3 decimal>,
a short or malformed id falls back to fixed sentinel segments, the leaf
directory is the full id and the file name its first 16 bytes. -/
def calculatePaths (year docID : String) : DocumentPaths :=
  let cs := docID.data
  let byte1 := if cs.length ≥ 6 then "0x" ++ String.mk (cs.take 2) else "0xff__"
  let byte2 := if cs.length ≥ 6 then goToUpper (String.mk ((cs.drop 2).take 2)) else "FF__"
  let byte3 :=
    if cs.length ≥ 6 then sprintf03 (goParseIntHex16 (String.mk ((cs.drop 4).take 2)))
    else "255__"
  let dirPath := goJoin (goJoin (goJoin (goJoin year byte1) byte2) byte3) docID
  let fname := if cs.length > 16 then String.mk (cs.take 16) else docID
  { DirPath := dirPath
    DataPath := goJoin dirPath (fname ++ ".data")
    MetaPath := goJoin dirPath (fname ++ ".meta") }

/-- DocumentStore mirrors the struct of document.go: the two lookback depths,
the rooted filesystem adapter, and the sync.Map cache from document id to
archive year (newest binding first, as sync.Map Store overwrites). -/
structure DocumentStore where
  lookbackYears : Int
  existbackYears : Int
  root : String
  cache : List (String × String)
deriving DecidableEq

/-- NewDocumentStore models the constructor: both lookback depths start at
the zero value and the cache is empty.  The MkdirAll performed by
NewFileSystem touches only the disk root and no claim depends on it. -/
def NewDocumentStore (rootPath : String) : DocumentStore :=
  { lookbackYears := 0, existbackYears := 0, root := rootPath, cache := [] }

/-- DocumentStore.SetLookbackYears rejects values outside 1..1000 and keeps
the previous value. -/
def DocumentStore.SetLookbackYears (ds : DocumentStore) (years : Int) : DocumentStore :=
  if years ≤ 0 ∨ years > 1000 then ds else { ds with lookbackYears := years }

/-- DocumentStore.SetExistbackYears rejects values outside 1..1000 and keeps
the previous value. -/
def DocumentStore.SetExistbackYears (ds : DocumentStore) (years : Int) : DocumentStore :=
  if years ≤ 0 ∨ years > 1000 then ds else { ds with existbackYears := years }

/-- StoreResult collects the four results of Store: the updated store (its
cache), the updated disk, the returned year and the returned error. -/
structure StoreResult where
  ds : DocumentStore
  fs : FsState
  year : String
  err : Option Err

/-- DocumentStore.Store models Store: refuse a cached or already-present id
with a conflict error, otherwise write the payload, marshal and write the
default metadata, record the cache entry and return the resolved year.  Note
that the id is used exactly as passed (no case normalization) and that a
failure after the data write leaves the data file on disk. -/
def DocumentStore.Store (ds : DocumentStore) (env : Env) (σ : FsState)
    (year docID : String) (data : Bytes) (meta : Metaer) : StoreResult :=
  if (ds.cache.lookup docID).isSome then
    ⟨ds, σ, "", some (.doc .store "document already exists")⟩
  else
    let year := if year = "" then env.now else year
    let paths := calculatePaths year docID
    if fssExists ds.root σ paths.DataPath then
      ⟨ds, σ, "", some (.doc .store "document already exists")⟩
    else
      match fssWrite ds.root σ paths.DataPath data with
      | (σ₁, some e) => ⟨ds, σ₁, "", some (.wrap "failed to write document data: " e)⟩
      | (σ₁, none) =>
        match meta.marshal with
        | none => ⟨ds, σ₁, "", some (.wrap "failed to marshal metadata: " (.other "marshal"))⟩
        | some metaBytes =>
          match fssWrite ds.root σ₁ paths.MetaPath metaBytes with
          | (σ₂, some e) => ⟨ds, σ₂, "", some (.wrap "failed to write metadata: " e)⟩
          | (σ₂, none) =>
            ⟨{ ds with cache := (docID, year) :: ds.cache }, σ₂, year, none⟩

/-- StoreMetaResult collects the results of StoreMeta. -/
structure StoreMetaResult where
  fs : FsState
  year : String
  err : Option Err

/-- DocumentStore.StoreMeta models StoreMeta: it fails not-found unless the
document data file already exists, then (over)writes the metadata file, with
the normalized language as a suffix when nonempty.  The id is used exactly
as passed and the cache is not consulted. -/
def DocumentStore.StoreMeta (ds : DocumentStore) (env : Env) (σ : FsState)
    (year docID : String) (meta : Metaer) (lang : String) : StoreMetaResult :=
  let year := if year = "" then env.now else year
  let paths := calculatePaths year docID
  if !(fssExists ds.root σ paths.DataPath) then
    ⟨σ, "", some (.doc .store "document not found")⟩
  else
    match meta.marshal with
    | none => ⟨σ, "", some (.wrap "failed to marshal metadata: " (.other "marshal"))⟩
    | some metaBytes =>
      let lang := normalizeLang lang
      let langMetaPath := if lang ≠ "" then paths.MetaPath ++ "." ++ lang else paths.MetaPath
      match fssWrite ds.root σ langMetaPath metaBytes with
      | (σ₁, some e) => ⟨σ₁, "", some (.wrap "failed to write metadata: " e)⟩
      | (σ₁, none) => ⟨σ₁, year, none⟩

/-- DocumentStore.Exists models Exists: the id is lowercased, the cache is
consulted first, then the data path of the given year is checked without any
lookback. -/
def DocumentStore.Exists (ds : DocumentStore) (σ : FsState) (year docID : String) : Bool :=
  let docID := goToLower docID
  if (ds.cache.lookup docID).isSome then true
  else fssExists ds.root σ (calculatePaths year docID).DataPath

/-- findDocumentYear models the backward year walk: starting from the given
year (or the current year when empty), check the data path of that year and
then of start-1, start-2, ... for maxYears iterations in total; the start
string must parse as an integer.  fdyLoop carries the remaining iteration
count, the 1-based loop counter i and the current year string. -/
def fdyLoop (root : String) (σ : FsState) (docID : String) (start : Int) :
    String → Nat → Nat → Except Err String
  | _, _, 0 => .error (.doc .get "document not found")
  | cur, i, rem + 1 =>
    if fssExists root σ (calculatePaths cur docID).DataPath then .ok cur
    else fdyLoop root σ docID start (toString (start - i)) (i + 1) rem

/-- DocumentStore.findDocumentYear models the private findDocumentYear. -/
def DocumentStore.findDocumentYear (ds : DocumentStore) (env : Env) (σ : FsState)
    (year docID : String) (maxYears : Int) : Except Err String :=
  let currentYear := if year ≠ "" then year else env.now
  match goAtoi currentYear with
  | none => .error (.wrap "invalid year: " (.other "atoi"))
  | some start => fdyLoop ds.root σ docID start currentYear 1 maxYears.toNat

/-- DocumentStore.getDocumentData models the private getDocumentData. -/
def DocumentStore.getDocumentData (ds : DocumentStore) (σ : FsState)
    (year docID : String) : Except Err Bytes :=
  match fssRead ds.root σ (calculatePaths year docID).DataPath with
  | .error e => .error (.wrap "failed to read document data: " e)
  | .ok d => .ok d

/-- DocumentStore.getMetaWithYear models the private getMetaWithYear: when a
nonempty language is given and the suffixed metadata file exists it is read,
otherwise the default metadata file is read in full; the bytes are then
unmarshalled. -/
def DocumentStore.getMetaWithYear (ds : DocumentStore) (env : Env) (σ : FsState)
    (year docID lang : String) : Except Err Bytes :=
  let paths := calculatePaths year docID
  let metaPath :=
    if lang ≠ "" then
      let langMetaPath := paths.MetaPath ++ "." ++ lang
      if fssExists ds.root σ langMetaPath then langMetaPath else ""
    else ""
  let metaPath := if metaPath = "" then paths.MetaPath else metaPath
  match fssRead ds.root σ metaPath with
  | .error e => .error (.wrap "failed to read metadata: " e)
  | .ok metaBytes =>
    match env.unmarshal metaBytes with
    | none => .error (.wrap "failed to unmarshal metadata: " (.other "json"))
    | some m => .ok m

/-- GetResult collects the three results of Get; the data component is
returned even when the metadata step fails, exactly as in the source. -/
structure GetResult where
  data : Option Bytes
  meta : Option Bytes
  err : Option Err
deriving DecidableEq

/-- DocumentStore.Get models Get: lowercase the id, read the data of the
exact year (no lookback), then the metadata; a metadata failure still
returns the data together with the error. -/
def DocumentStore.Get (ds : DocumentStore) (env : Env) (σ : FsState)
    (year docID lang : String) : GetResult :=
  let docID := goToLower docID
  match ds.getDocumentData σ year docID with
  | .error e => ⟨none, none, some (.wrap "failed to get document data: " e)⟩
  | .ok data =>
    match ds.getMetaWithYear env σ year docID lang with
    | .error e => ⟨some data, none, some (.wrap "failed to get document metadata: " e)⟩
    | .ok m => ⟨some data, some m, none⟩

/-- GetYearResult collects the four results of GetFromYear. -/
structure GetYearResult where
  data : Option Bytes
  meta : Option Bytes
  year : String
  err : Option Err
deriving DecidableEq

/-- DocumentStore.GetFromYear models GetFromYear: lowercase the id, resolve
the year from the cache or by the lookback walk, then read data and
metadata at the resolved year. -/
def DocumentStore.GetFromYear (ds : DocumentStore) (env : Env) (σ : FsState)
    (year docID lang : String) : GetYearResult :=
  let docID := goToLower docID
  let yres : Except Err String :=
    match ds.cache.lookup docID with
    | some y => .ok y
    | none => ds.findDocumentYear env σ year docID ds.lookbackYears
  match yres with
  | .error e => ⟨none, none, "", some (.wrap "document not found: " e)⟩
  | .ok y =>
    match ds.getDocumentData σ y docID with
    | .error e => ⟨none, none, y, some (.wrap "failed to get document data: " e)⟩
    | .ok data =>
      match ds.getMetaWithYear env σ y docID lang with
      | .error e => ⟨some data, none, y, some (.wrap "failed to get metadata: " e)⟩
      | .ok m => ⟨some data, some m, y, none⟩

/-- DocumentStore.GetMeta models GetMeta: lowercase the id and fetch the
metadata of the exact year, without lookback. -/
def DocumentStore.GetMeta (ds : DocumentStore) (env : Env) (σ : FsState)
    (year docID lang : String) : Except Err Bytes :=
  let docID := goToLower docID
  match ds.getMetaWithYear env σ year docID lang with
  | .error e => .error (.wrap "failed to get document metadata: " e)
  | .ok m => .ok m

/-- GetMetaYearResult collects the three results of GetMetaFromYear. -/
structure GetMetaYearResult where
  meta : Option Bytes
  year : String
  err : Option Err
deriving DecidableEq

/-- DocumentStore.GetMetaFromYear models GetMetaFromYear: lowercase the id,
resolve the year from the cache or the lookback walk, then fetch metadata
with the normalized language. -/
def DocumentStore.GetMetaFromYear (ds : DocumentStore) (env : Env) (σ : FsState)
    (year docID lang : String) : GetMetaYearResult :=
  let docID := goToLower docID
  let yres : Except Err String :=
    match ds.cache.lookup docID with
    | some y => .ok y
    | none => ds.findDocumentYear env σ year docID ds.lookbackYears
  match yres with
  | .error e => ⟨none, "", some (.wrap "document not found: " e)⟩
  | .ok y =>
    match ds.getMetaWithYear env σ y docID (normalizeLang lang) with
    | .error e => ⟨none, y, some (.wrap "failed to get metadata: " e)⟩
    | .ok m => ⟨some m, y, none⟩

/-- DocumentStore.ExistsFromYear models ExistsFromYear: lowercase the id,
answer from the cache, or walk back existbackYears years. -/
def DocumentStore.ExistsFromYear (ds : DocumentStore) (env : Env) (σ : FsState)
    (year docID : String) : String × Bool :=
  let docID := goToLower docID
  match ds.cache.lookup docID with
  | some y => (y, true)
  | none =>
    match ds.findDocumentYear env σ year docID ds.existbackYears with
    | .error _ => ("", false)
    | .ok y => (y, true)

/-- goStrIndex models strings.Index: the lowest index where sub starts in s,
or -1 when sub does not occur. -/
def goStrIndex (s sub : String) : Int :=
  match (List.range (s.data.length + 1)).find? (fun i => listPfx sub.data (s.data.drop i)) with
  | some i => (i : Int)
  | none => -1

/-- dmaLoop is the removal loop of deleteMetaAll over the listed file names:
every name containing ".meta" at a positive byte index is removed; the first
removal error stops the loop. -/
def dmaLoop (root : String) (dirPath : String) :
    FsState → List String → FsState × Option Err
  | σ, [] => (σ, none)
  | σ, f :: rest =>
    if goStrIndex f ".meta" > 0 then
      match fssRemove root σ (goJoin dirPath f) with
      | (σ₁, none) => dmaLoop root dirPath σ₁ rest
      | (σ₁, some e) => (σ₁, some (.wrap "failed to remove metadata: " e))
    else dmaLoop root dirPath σ rest

/-- DocumentStore.deleteMetaAll models the private deleteMetaAll. -/
def DocumentStore.deleteMetaAll (ds : DocumentStore) (σ : FsState)
    (dirPath : String) : FsState × Option Err :=
  match fssList ds.root σ dirPath with
  | .error e => (σ, some (.wrap "failed to list metadata: " e))
  | .ok files => dmaLoop ds.root dirPath σ files

/-- DocumentStore.Delete models Delete: remove the data file, then every
metadata variant (the error of that step is discarded by the source), then
the leaf directory.  The id is used exactly as passed and the cache entry
of the id is not removed. -/
def DocumentStore.Delete (ds : DocumentStore) (σ : FsState)
    (year docID : String) : FsState × Option Err :=
  let paths := calculatePaths year docID
  match fssRemove ds.root σ paths.DataPath with
  | (σ₁, some e) => (σ₁, some (.wrap "failed to remove document data: " e))
  | (σ₁, none) =>
    let σ₂ := (ds.deleteMetaAll σ₁ paths.DirPath).1
    match fssRemove ds.root σ₂ paths.DirPath with
    | (σ₃, some e) => (σ₃, some (.wrap "failed to remove document directory: " e))
    | (σ₃, none) => (σ₃, none)

/-- DocumentStore.DeleteMeta models DeleteMeta: remove exactly one metadata
variant, the language-suffixed one when a language is given after
normalization, the default one otherwise. -/
def DocumentStore.DeleteMeta (ds : DocumentStore) (σ : FsState)
    (year docID lang : String) : FsState × Option Err :=
  let paths := calculatePaths year docID
  let lang := normalizeLang lang
  if lang ≠ "" then
    match fssRemove ds.root σ (paths.MetaPath ++ "." ++ lang) with
    | (σ₁, some e) => (σ₁, some (.wrap "failed to remove metadata: " e))
    | (σ₁, none) => (σ₁, none)
  else
    match fssRemove ds.root σ paths.MetaPath with
    | (σ₁, some e) => (σ₁, some (.wrap "failed to remove metadata: " e))
    | (σ₁, none) => (σ₁, none)

/-! ### Legacy filesystem driver (package fs): identifier-token sharding -/

/-- orLowerChar models the byte operation id[n] | 0x20 used by the driver as
an ASCII lowercase map on [0-9a-zA-Z]. -/
def orLowerChar (c : Char) : Char :=
  Char.ofNat (c.toNat ||| 32)

/-- getResDirer models the handler built by getResDirer(n) applied to an
identifier: the guard skips offsets with n > len(id), and otherwise the
handler evaluates id[n], which is the character at 0-based offset n; at
n = len(id) that index is out of range and the Go program crashes with a
runtime panic, modelled as none. -/
def getResDirer (n : Nat) (id : String) : Option String :=
  if n > id.data.length then some ""
  else
    match id.data[n]? with
    | some c => some (String.singleton (orLowerChar c))
    | none => none

/-- resSubsParse models (rs *resSubs).Parse on the configuration string: each
slash-separated token must parse by strconv.Atoi to a positive integer. -/
def resSubsParse (cfg : String) : Option (List Nat) :=
  (splitSlash cfg).mapM (fun s =>
    match goAtoi s with
    | none => none
    | some n => if n ≤ 0 then none else some n.toNat)

/-- errNotFound lifts Err.isNotFound to the optional errors the operations
return: a nil error is not a not-found answer. -/
def errNotFound (o : Option Err) : Bool :=
  o.elim false Err.isNotFound

/-! ### Concrete fixtures shared by evaluation theorems and witnesses -/

/-- envC is a concrete environment: the current year is 2025 and metadata
bytes unmarshal to themselves. -/
def envC : Env := ⟨"2025", fun b => some b⟩

/-- metaC is a concrete metadata argument whose Marshal succeeds. -/
def metaC : Metaer := ⟨some [9, 9]⟩

/-- metaBad is a concrete metadata argument whose Marshal fails. -/
def metaBad : Metaer := ⟨none⟩

/-- sigma0 is the empty disk. -/
def sigma0 : FsState := ⟨[], [], []⟩

/-- idC is a 64-character lowercase hexadecimal document id, the shape the
spec gives content hashes. -/
def idC : String := "aabbcc0000000000000000000000000000000000000000000000000000000000"

/-- yearBack names the year strings findDocumentYear examines: the start
string itself at offset 0, and strconv.Itoa(start - i) at offset i ≥ 1. -/
def yearBack (yStr : String) (start : Int) : Nat → String
  | 0 => yStr
  | i + 1 => toString (start - ((i + 1 : Nat) : Int))

/-- sigmaY is a disk holding only the data file of document "aabbcc" under
year 2024 (one year before 2025). -/
def sigmaY : FsState :=
  ⟨[("2024/0xaa/BB/204/aabbcc/aabbcc.data", [5])], [], []⟩

/-- sigmaY2 is a disk holding only the data file of document "aabbcc" under
year 2023 (two years before 2025). -/
def sigmaY2 : FsState :=
  ⟨[("2023/0xaa/BB/204/aabbcc/aabbcc.data", [5])], [], []⟩

/-- sigmaMeta is a disk holding a default metadata file and a "fr" variant
for the document "aabbcc" of year 2025. -/
def sigmaMeta : FsState :=
  ⟨[("2025/0xaa/BB/204/aabbcc/aabbcc.meta", [1]),
    ("2025/0xaa/BB/204/aabbcc/aabbcc.meta.fr", [2])], [], []⟩

/-- sigmaFailMeta is a disk that accepts the data write but rejects the
write of the default metadata file of document "aabbcc" in year 2025 (an
injected I/O fault). -/
def sigmaFailMeta : FsState :=
  ⟨[], [], ["2025/0xaa/BB/204/aabbcc/aabbcc.meta"]⟩

/-! ### Generic helper lemmas -/

theorem listPfx_append_self (l r : List Char) : listPfx l (l ++ r) = true := by
  induction l with
  | nil => rfl
  | cons a as ih => simp [listPfx, ih]

theorem str_eq_empty_of_data {s : String} (h : s.data = []) : s = "" := by
  cases s with
  | mk l =>
    cases h
    rfl

theorem str_data_ne_nil {s : String} (hs : s ≠ "") : s.data ≠ [] :=
  fun hd => hs (str_eq_empty_of_data hd)

theorem lookup_eq_none_of_nomem {β : Type} (l : List (String × β)) (k : String)
    (h : ∀ e ∈ l, e.1 ≠ k) : l.lookup k = none := by
  induction l with
  | nil => rfl
  | cons e es ih =>
    have h1 : e.1 ≠ k := h e (List.mem_cons_self e es)
    have hb : (k == e.1) = false := beq_eq_false_iff_ne.mpr (fun x => h1 x.symm)
    simp only [List.lookup, hb]
    exact ih (fun x hx => h x (List.mem_cons_of_mem e hx))

theorem mem_of_lookup_eq_some {β : Type} {l : List (String × β)} {k : String} {v : β}
    (h : l.lookup k = some v) : (k, v) ∈ l := by
  induction l with
  | nil => simp [List.lookup] at h
  | cons e es ih =>
    by_cases he : k = e.1
    · have hb : (k == e.1) = true := beq_iff_eq.mpr he
      simp only [List.lookup, hb] at h
      cases h
      cases e
      simp_all
    · have hb : (k == e.1) = false := beq_eq_false_iff_ne.mpr he
      simp only [List.lookup, hb] at h
      exact List.mem_cons_of_mem e (ih h)

theorem lookup_filter_ne {β : Type} (l : List (String × β)) (k q : String) (h : q ≠ k) :
    (l.filter (fun e => !(e.1 == k))).lookup q = l.lookup q := by
  induction l with
  | nil => rfl
  | cons e es ih =>
    by_cases he : e.1 = k
    · have hb : (e.1 == k) = true := beq_iff_eq.mpr he
      have hq : (q == e.1) = false := beq_eq_false_iff_ne.mpr (by rw [he]; exact h)
      simp [List.filter_cons, hb, List.lookup, hq, ih]
    · have hb : (e.1 == k) = false := beq_eq_false_iff_ne.mpr he
      by_cases hqe : q = e.1
      · have hq : (q == e.1) = true := beq_iff_eq.mpr hqe
        simp [List.filter_cons, hb, List.lookup, hq]
      · have hq : (q == e.1) = false := beq_eq_false_iff_ne.mpr hqe
        simp [List.filter_cons, hb, List.lookup, hq, ih]

theorem strData_append (a b : String) : (a ++ b).data = a.data ++ b.data := rfl

theorem str_ne_of_data_length {s t : String} (h : s.data.length ≠ t.data.length) : s ≠ t := by
  intro e
  exact h (by rw [e])

theorem append_ne_empty_left {a : String} (b : String) (ha : a ≠ "") : a ++ b ≠ "" := by
  apply str_ne_of_data_length
  rw [strData_append, List.length_append]
  have h1 : 0 < a.data.length := List.length_pos.mpr (str_data_ne_nil ha)
  simp only [show ("" : String).data = [] from rfl, List.length_nil]
  omega

theorem append_ne_empty_right (a : String) {b : String} (hb : b ≠ "") : a ++ b ≠ "" := by
  apply str_ne_of_data_length
  rw [strData_append, List.length_append]
  have h1 : 0 < b.data.length := List.length_pos.mpr (str_data_ne_nil hb)
  simp only [show ("" : String).data = [] from rfl, List.length_nil]
  omega

theorem append_slash_ne_dot {a : String} (b : String) (ha : a ≠ "") : a ++ "/" ++ b ≠ "." := by
  apply str_ne_of_data_length
  rw [strData_append, strData_append, List.length_append, List.length_append]
  have h1 : 0 < a.data.length := List.length_pos.mpr (str_data_ne_nil ha)
  simp only [show ("/" : String).data = ['/'] from rfl,
    show ("." : String).data = ['.'] from rfl, List.length_cons, List.length_nil]
  omega

theorem goJoin_dot_left {b : String} (hb : b ≠ "") : goJoin "." b = b := by
  unfold goJoin
  rw [if_neg (by decide : ¬("." : String) = ""), if_neg hb, if_pos rfl]

theorem goJoin_ne_empty (a : String) {b : String} (hb : b ≠ "") : goJoin a b ≠ "" := by
  unfold goJoin
  by_cases h1 : a = ""
  · simpa [h1] using hb
  · rw [if_neg h1, if_neg hb]
    by_cases h3 : a = "."
    · simpa [h3] using hb
    · rw [if_neg h3]
      exact append_ne_empty_right _ hb

theorem goJoin_eq_append {a b : String} (ha : a ≠ "") (hadot : a ≠ ".") (hb : b ≠ "") :
    goJoin a b = a ++ "/" ++ b := by
  unfold goJoin
  rw [if_neg ha, if_neg hb, if_neg hadot]

theorem goJoin_ne_dot {a b : String} (hb : b ≠ "") (hbdot : b ≠ ".") : goJoin a b ≠ "." := by
  unfold goJoin
  by_cases h1 : a = ""
  · simpa [h1] using hbdot
  · rw [if_neg h1, if_neg hb]
    by_cases h3 : a = "."
    · simpa [h3] using hbdot
    · rw [if_neg h3]
      exact append_slash_ne_dot _ h1

theorem dataPath_ne_empty (year docID : String) : (calculatePaths year docID).DataPath ≠ "" := by
  unfold calculatePaths
  exact goJoin_ne_empty _ (append_ne_empty_right _ (by decide))

theorem metaPath_ne_empty (year docID : String) : (calculatePaths year docID).MetaPath ≠ "" := by
  unfold calculatePaths
  exact goJoin_ne_empty _ (append_ne_empty_right _ (by decide))

theorem osExists_of_lookup_isSome {σ : FsState} {p : String}
    (h : (σ.files.lookup p).isSome = true) : osExists σ p = true := by
  simp [osExists, statFound, h]

theorem fssExists_dot {σ : FsState} {p : String} (hp : p ≠ "") :
    fssExists "." σ p = osExists σ p := by
  simp [fssExists, filePath, goJoin_dot_left hp]

theorem fssRead_dot_ok {σ : FsState} {p : String} {P : Bytes} (hp : p ≠ "")
    (h : σ.files.lookup p = some P) : fssRead "." σ p = .ok P := by
  have h1 : filePath "." p = p := goJoin_dot_left hp
  have h2 : fssExists "." σ p = true := by
    rw [fssExists_dot hp]
    exact osExists_of_lookup_isSome (by simp [h])
  simp only [fssRead, h1, h2, Bool.not_true, Bool.false_eq_true, if_false, h]

theorem fssRead_dot_notfound {σ : FsState} {p : String} (hp : p ≠ "")
    (h : osExists σ p = false) : fssRead "." σ p = .error (.doc .get ("file not found: " ++ p)) := by
  have h1 : filePath "." p = p := goJoin_dot_left hp
  have h2 : fssExists "." σ p = false := by
    rw [fssExists_dot hp]
    exact h
  simp only [fssRead, h1, h2, Bool.not_false, if_true]

/-! ### Claim theorems -/

/-- Claim C1, code-bug evaluation.  The claim states the store/fetch round
trip: whenever Store(y, id, P, meta) succeeds, Get(y, id, lang) returns the
bytes P.  The code violates this for every store whose root path is a real
directory name (the shipped default is "./data"): fss.Read first replaces
its path argument by filePath(path) and then calls fs.Exists on the replaced
value, so the existence pre-check stats the root-prefixed path a second time
("data/data/...") and Read reports not-found for a file that is on disk.
This theorem evaluates the code at such a failing input: Store succeeds and
the payload bytes are on disk under the root, yet the immediate Get of the
same (year, id) returns no data and a not-found error. -/
theorem c1_roundtrip_rootbug :
    ((NewDocumentStore "data").Store envC sigma0 "2025" idC [1, 2, 3] metaC).err = none ∧
    ((NewDocumentStore "data").Store envC sigma0 "2025" idC [1, 2, 3] metaC).year = "2025" ∧
    ((NewDocumentStore "data").Store envC sigma0 "2025" idC [1, 2, 3] metaC).fs.files.lookup
      (filePath "data" (calculatePaths "2025" idC).DataPath) = some [1, 2, 3] ∧
    ((((NewDocumentStore "data").Store envC sigma0 "2025" idC [1, 2, 3] metaC).ds.Get envC
        ((NewDocumentStore "data").Store envC sigma0 "2025" idC [1, 2, 3] metaC).fs
        "2025" idC "").data = none) ∧
    errNotFound (((NewDocumentStore "data").Store envC sigma0 "2025" idC [1, 2, 3] metaC).ds.Get
        envC ((NewDocumentStore "data").Store envC sigma0 "2025" idC [1, 2, 3] metaC).fs
        "2025" idC "").err = true := by
  set_option maxRecDepth 100000 in decide

theorem ne_empty_of_len {s : String} (h : 1 ≤ s.data.length) : s ≠ "" := by
  apply str_ne_of_data_length
  simp only [show ("" : String).data = [] from rfl, List.length_nil]
  omega

theorem ne_dot_of_len {s : String} (h : 2 ≤ s.data.length) : s ≠ "." := by
  apply str_ne_of_data_length
  simp only [show ("." : String).data = ['.'] from rfl, List.length_cons, List.length_nil]
  omega

theorem padZeros_le_len (w : Nat) (s : String) : w ≤ (padZeros w s).data.length := by
  unfold padZeros
  split
  · assumption
  · rw [strData_append]
    simp only [List.length_append, List.length_replicate]
    have h2 : s.length = s.data.length := rfl
    omega

theorem sprintf03_le_len (v : Int) : 3 ≤ (sprintf03 v).data.length := by
  unfold sprintf03
  split
  · rw [strData_append]
    simp only [List.length_append, show ("-" : String).data = ['-'] from rfl,
      List.length_cons, List.length_nil]
    have h1 := padZeros_le_len 2 (toString (-v))
    omega
  · exact padZeros_le_len 3 (toString v)

theorem strPfx_append_self (a b : String) : strPfx a (a ++ b) = true := by
  unfold strPfx
  rw [strData_append]
  exact listPfx_append_self _ _

/-- The leaf directory of a document path is nonempty, distinct from ".",
and a proper path ancestor of the data file. -/
theorem dirPath_facts (year docID : String) (hid : docID ≠ "") :
    (calculatePaths year docID).DirPath ≠ "" ∧
    (calculatePaths year docID).DirPath ≠ "." ∧
    strPfx ((calculatePaths year docID).DirPath ++ "/") (calculatePaths year docID).DataPath = true := by
  have hb3ne : (if docID.data.length ≥ 6
      then sprintf03 (goParseIntHex16 (String.mk ((docID.data.drop 4).take 2)))
      else "255__") ≠ "" := by
    split
    · have h9 := sprintf03_le_len (goParseIntHex16 (String.mk ((docID.data.drop 4).take 2)))
      exact ne_empty_of_len (by omega)
    · decide
  have hb3nd : (if docID.data.length ≥ 6
      then sprintf03 (goParseIntHex16 (String.mk ((docID.data.drop 4).take 2)))
      else "255__") ≠ "." := by
    split
    · have h9 := sprintf03_le_len (goParseIntHex16 (String.mk ((docID.data.drop 4).take 2)))
      exact ne_dot_of_len (by omega)
    · decide
  simp only [calculatePaths]
  have h3ne : goJoin (goJoin (goJoin year
      (if docID.data.length ≥ 6 then "0x" ++ String.mk (docID.data.take 2) else "0xff__"))
      (if docID.data.length ≥ 6 then goToUpper (String.mk ((docID.data.drop 2).take 2)) else "FF__"))
      (if docID.data.length ≥ 6
        then sprintf03 (goParseIntHex16 (String.mk ((docID.data.drop 4).take 2)))
        else "255__") ≠ "" := goJoin_ne_empty _ hb3ne
  have h3nd : goJoin (goJoin (goJoin year
      (if docID.data.length ≥ 6 then "0x" ++ String.mk (docID.data.take 2) else "0xff__"))
      (if docID.data.length ≥ 6 then goToUpper (String.mk ((docID.data.drop 2).take 2)) else "FF__"))
      (if docID.data.length ≥ 6
        then sprintf03 (goParseIntHex16 (String.mk ((docID.data.drop 4).take 2)))
        else "255__") ≠ "." := goJoin_ne_dot hb3ne hb3nd
  refine ⟨goJoin_ne_empty _ hid, ?_, ?_⟩
  · rw [goJoin_eq_append h3ne h3nd hid]
    exact append_slash_ne_dot _ h3ne
  · rw [goJoin_eq_append (goJoin_ne_empty _ hid)
      (by rw [goJoin_eq_append h3ne h3nd hid]; exact append_slash_ne_dot _ h3ne)
      (append_ne_empty_right _ (by decide))]
    exact strPfx_append_self _ _

theorem contains_false_of_nomem (l : List String) (x : String) (h : x ∉ l) :
    l.contains x = false := by
  induction l with
  | nil => rfl
  | cons d rest ih =>
    have hxd : (x == d) = false := beq_eq_false_iff_ne.mpr (fun he => h (he ▸ List.mem_cons_self d rest))
    simp only [List.contains_cons, hxd, Bool.false_or]
    exact ih (fun hm => h (List.mem_cons_of_mem d hm))

theorem mem_of_contains_true {l : List String} {x : String} (h : l.contains x = true) :
    x ∈ l := by
  by_contra hn
  rw [contains_false_of_nomem l x hn] at h
  exact Bool.noConfusion h

/-- Removals never add files. -/
theorem fssRemove_files_subset (root : String) (σ : FsState) (p : String) :
    ∀ e ∈ (fssRemove root σ p).1.files, e ∈ σ.files := by
  intro e he
  simp only [fssRemove] at he
  split at he
  · exact he
  · split at he
    · exact List.mem_of_mem_filter he
    · split at he
      · split at he
        · exact he
        · exact he
      · exact he

/-- The deleteMetaAll loop never adds files. -/
theorem dmaLoop_files_subset (root dirPath : String) :
    ∀ (names : List String) (σ : FsState), ∀ e ∈ (dmaLoop root dirPath σ names).1.files, e ∈ σ.files := by
  intro names
  induction names with
  | nil => intro σ e he; exact he
  | cons f rest ih =>
    intro σ e he
    unfold dmaLoop at he
    split at he
    · rcases hrm : fssRemove root σ (goJoin dirPath f) with ⟨σ₁, e1⟩
      rw [hrm] at he
      cases e1 with
      | none =>
        have h1 := ih σ₁ e he
        have h2 := fssRemove_files_subset root σ (goJoin dirPath f) e (by rw [hrm]; exact h1)
        exact h2
      | some e2 =>
        exact fssRemove_files_subset root σ (goJoin dirPath f) e (by rw [hrm]; exact he)
    · exact ih σ e he

/-- deleteMetaAll never adds files. -/
theorem deleteMetaAll_files_subset (ds : DocumentStore) (σ : FsState) (dirPath : String) :
    ∀ e ∈ (ds.deleteMetaAll σ dirPath).1.files, e ∈ σ.files := by
  intro e he
  unfold DocumentStore.deleteMetaAll at he
  split at he
  · exact he
  · exact dmaLoop_files_subset ds.root dirPath _ σ e he

/-- fssRemove of an existing regular file on a store rooted at ".". -/
theorem fssRemove_dot_file {σ : FsState} {p : String} (hp : p ≠ "")
    (h : (σ.files.lookup p).isSome = true) :
    fssRemove "." σ p = ({ σ with files := dropFile σ.files p }, none) := by
  have h1 : filePath "." p = p := goJoin_dot_left hp
  have h2 : fssExists "." σ p = true := by
    rw [fssExists_dot hp]
    exact osExists_of_lookup_isSome h
  simp only [fssRemove, h1, h2, Bool.not_true, Bool.false_eq_true, if_false, h, if_true]

/-- Inversion of a successful fssRemove on a path that is not a regular
file: the path was an empty directory, which is removed, files unchanged. -/
theorem fssRemove_dir_inv {σ σ' : FsState} {p : String} (hp : p ≠ "")
    (hnf : (σ.files.lookup p).isSome = false)
    (h : fssRemove "." σ p = (σ', none)) :
    hasChild σ p = false ∧ σ'.files = σ.files ∧
    σ'.dirs = σ.dirs.filter (fun d => !(d == p)) ∧ σ.dirs.contains p = true := by
  have h1 : filePath "." p = p := goJoin_dot_left hp
  simp only [fssRemove, h1, hnf, Bool.false_eq_true, if_false] at h
  cases hex : fssExists "." σ p with
  | false =>
    rw [hex] at h
    simp at h
  | true =>
    rw [hex] at h
    simp only [Bool.not_true, Bool.false_eq_true, if_false] at h
    cases hcont : σ.dirs.contains p with
    | false =>
      rw [hcont] at h
      simp at h
    | true =>
      rw [hcont] at h
      simp only [if_true] at h
      cases hch : hasChild σ p with
      | true =>
        rw [hch] at h
        simp at h
      | false =>
        rw [hch] at h
        simp only [Bool.false_eq_true, if_false] at h
        have h2 : σ' = { σ with dirs := σ.dirs.filter (fun d => !(d == p)) } := by
          have := congrArg Prod.fst h
          exact this.symm
        exact ⟨rfl, by rw [h2], by rw [h2], rfl⟩

/-- The backward walk fails when every examined year misses. -/
theorem fdyLoop_miss (root : String) (σ : FsState) (docID yStr : String) (start : Int) :
    ∀ (r i' : Nat),
      (∀ j, j < r →
        fssExists root σ (calculatePaths (yearBack yStr start (i' + j)) docID).DataPath = false) →
      fdyLoop root σ docID start (yearBack yStr start i') (i' + 1) r =
        .error (.doc .get "document not found") := by
  intro r
  induction r with
  | zero => intro i' _; rfl
  | succ r ih =>
    intro i' h
    have h0 : fssExists root σ (calculatePaths (yearBack yStr start i') docID).DataPath = false := by
      have h1 := h 0 (Nat.succ_pos r)
      simpa using h1
    unfold fdyLoop
    simp only [h0, Bool.false_eq_true, if_false]
    have hy : toString (start - ((i' + 1 : Nat) : Int)) = yearBack yStr start (i' + 1) := rfl
    rw [hy]
    apply ih (i' + 1)
    intro j hj
    have h2 := h (j + 1) (by omega)
    rw [show i' + (j + 1) = i' + 1 + j from by omega] at h2
    exact h2

/-- The backward walk returns the m-th examined year when the earlier ones
miss and that one hits, provided the depth admits m. -/
theorem fdyLoop_hit (root : String) (σ : FsState) (docID yStr : String) (start : Int) :
    ∀ (m r i' : Nat), m < r →
      (∀ j, j < m →
        fssExists root σ (calculatePaths (yearBack yStr start (i' + j)) docID).DataPath = false) →
      fssExists root σ (calculatePaths (yearBack yStr start (i' + m)) docID).DataPath = true →
      fdyLoop root σ docID start (yearBack yStr start i') (i' + 1) r =
        .ok (yearBack yStr start (i' + m)) := by
  intro m
  induction m with
  | zero =>
    intro r i' hr hmiss hhit
    obtain ⟨r', rfl⟩ : ∃ r', r = r' + 1 := ⟨r - 1, by omega⟩
    unfold fdyLoop
    have h0 : fssExists root σ (calculatePaths (yearBack yStr start i') docID).DataPath = true := by
      simpa using hhit
    simp [h0]
  | succ m ih =>
    intro r i' hr hmiss hhit
    obtain ⟨r', rfl⟩ : ∃ r', r = r' + 1 := ⟨r - 1, by omega⟩
    unfold fdyLoop
    have h0 : fssExists root σ (calculatePaths (yearBack yStr start i') docID).DataPath = false := by
      have h1 := hmiss 0 (by omega)
      simpa using h1
    simp only [h0, Bool.false_eq_true, if_false]
    have hy : toString (start - ((i' + 1 : Nat) : Int)) = yearBack yStr start (i' + 1) := rfl
    rw [hy]
    have hgoal := ih r' (i' + 1) (by omega)
      (fun j hj => by
        have h2 := hmiss (j + 1) (by omega)
        rw [show i' + (j + 1) = i' + 1 + j from by omega] at h2
        exact h2)
      (by
        have h3 := hhit
        rw [show i' + (m + 1) = i' + 1 + m from by omega] at h3
        exact h3)
    rw [show i' + 1 + m = i' + (m + 1) from by omega] at hgoal
    exact hgoal

/-- With a nonempty, parseable start year, findDocumentYear is the walk
starting at that year with loop counter 1 and maxYears.toNat iterations. -/
theorem findDocumentYear_eq (ds : DocumentStore) (env : Env) (σ : FsState)
    (yStr docID : String) (start : Int) (K : Int)
    (hyne : yStr ≠ "") (hy : goAtoi yStr = some start) :
    ds.findDocumentYear env σ yStr docID K = fdyLoop ds.root σ docID start yStr 1 K.toNat := by
  simp only [DocumentStore.findDocumentYear]
  rw [if_pos hyne, hy]

/-- Claim C2: lookback boundary.  For a store rooted at "." with configured
lookback depth K in 1..1000, a start year that parses to the integer start,
and an id absent from the cache whose data file lives only under the year
examined at offset N (the start year for N = 0, Itoa(start - N) otherwise),
GetFromYear returns the stored bytes exactly when N < K; when N = K it fails
with the not-found error and returns no data — depth 1 therefore examines
the start year only. -/
theorem c2_lookback_boundary (ds : DocumentStore) (env : Env) (σ : FsState)
    (yStr docID lang : String) (start : Int) (P : Bytes) (N : Nat)
    (hroot : ds.root = ".")
    (hyne : yStr ≠ "")
    (hy : goAtoi yStr = some start)
    (hK : 1 ≤ ds.lookbackYears) (hK2 : ds.lookbackYears ≤ 1000)
    (hcache : ds.cache.lookup (goToLower docID) = none)
    (hstored : σ.files.lookup
        (calculatePaths (yearBack yStr start N) (goToLower docID)).DataPath = some P)
    (honly : ∀ i : Nat, (i : Int) < ds.lookbackYears → i ≠ N →
        fssExists ds.root σ
          (calculatePaths (yearBack yStr start i) (goToLower docID)).DataPath = false) :
    ((ds.GetFromYear env σ yStr docID lang).data = some P ↔ (N : Int) < ds.lookbackYears) ∧
    ((N : Int) = ds.lookbackYears →
      (ds.GetFromYear env σ yStr docID lang).err =
        some (.wrap "document not found: " (.doc .get "document not found")) ∧
      (ds.GetFromYear env σ yStr docID lang).data = none) := by
  have hKnat : ((ds.lookbackYears.toNat : Int)) = ds.lookbackYears :=
    Int.toNat_of_nonneg (by omega)
  have hfde := findDocumentYear_eq ds env σ yStr (goToLower docID) start ds.lookbackYears hyne hy
  by_cases hNK : (N : Int) < ds.lookbackYears
  · have hNlt : N < ds.lookbackYears.toNat := by omega
    have hhit : fssExists ds.root σ
        (calculatePaths (yearBack yStr start N) (goToLower docID)).DataPath = true := by
      rw [hroot, fssExists_dot (dataPath_ne_empty _ _)]
      exact osExists_of_lookup_isSome (by simp [hstored])
    have hok : ds.findDocumentYear env σ yStr (goToLower docID) ds.lookbackYears =
        .ok (yearBack yStr start N) := by
      rw [hfde]
      have h4 := fdyLoop_hit ds.root σ (goToLower docID) yStr start N ds.lookbackYears.toNat 0
        hNlt (fun j hj => by rw [Nat.zero_add]; exact honly j (by omega) (by omega))
        (by rw [Nat.zero_add]; exact hhit)
      simpa [yearBack] using h4
    have hread : fssRead ds.root σ
        (calculatePaths (yearBack yStr start N) (goToLower docID)).DataPath = .ok P := by
      rw [hroot]
      exact fssRead_dot_ok (dataPath_ne_empty _ _) hstored
    have hres : (ds.GetFromYear env σ yStr docID lang).data = some P := by
      simp only [DocumentStore.GetFromYear, hcache, hok, DocumentStore.getDocumentData, hread]
      cases hgm : ds.getMetaWithYear env σ (yearBack yStr start N) (goToLower docID) lang <;>
        simp [hgm]
    exact ⟨⟨fun _ => hNK, fun _ => hres⟩, fun hEq => absurd hEq (by omega)⟩
  · have herr : ds.findDocumentYear env σ yStr (goToLower docID) ds.lookbackYears =
        .error (.doc .get "document not found") := by
      rw [hfde]
      have h5 := fdyLoop_miss ds.root σ (goToLower docID) yStr start ds.lookbackYears.toNat 0
        (fun j hj => by rw [Nat.zero_add]; exact honly j (by omega) (by omega))
      simpa [yearBack] using h5
    have hres : ds.GetFromYear env σ yStr docID lang =
        ⟨none, none, "", some (.wrap "document not found: " (.doc .get "document not found"))⟩ := by
      simp only [DocumentStore.GetFromYear, hcache, herr]
    rw [hres]
    exact ⟨⟨fun h => absurd h (by simp), fun h => absurd h hNK⟩, fun _ => ⟨rfl, rfl⟩⟩

/-- Witness for C2: a store with lookback 2 finds a document stored one year
back (N = 1 < 2) and returns its bytes, and fails not-found for a document
stored exactly two years back (N = 2 = K). -/
theorem c2_lookback_boundary_witness :
    (DocumentStore.GetFromYear ⟨2, 0, ".", []⟩ envC sigmaY "2025" "aabbcc" "").data = some [5] ∧
    (DocumentStore.GetFromYear ⟨2, 0, ".", []⟩ envC sigmaY2 "2025" "aabbcc" "").err =
      some (.wrap "document not found: " (.doc .get "document not found")) ∧
    (DocumentStore.GetFromYear ⟨2, 0, ".", []⟩ envC sigmaY2 "2025" "aabbcc" "").data = none := by
  have h1 := c2_lookback_boundary ⟨2, 0, ".", []⟩ envC sigmaY "2025" "aabbcc" "" 2025 [5] 1
    rfl (by decide) (by decide) (by decide) (by decide) rfl (by decide)
    (by
      intro i hi hne
      have hi2 : (i : Int) < 2 := hi
      have h0 : i = 0 := by omega
      subst h0
      decide)
  have h2 := c2_lookback_boundary ⟨2, 0, ".", []⟩ envC sigmaY2 "2025" "aabbcc" "" 2025 [5] 2
    rfl (by decide) (by decide) (by decide) (by decide) rfl (by decide)
    (by
      intro i hi hne
      have hi2 : (i : Int) < 2 := hi
      have h0 : i = 0 ∨ i = 1 := by omega
      rcases h0 with h0 | h0 <;> (subst h0; decide))
  exact ⟨h1.1.mpr (by decide), (h2.2 (by decide)).1, (h2.2 (by decide)).2⟩

theorem any_false_iff {α : Type} (p : α → Bool) (l : List α) :
    l.any p = false ↔ ∀ x ∈ l, p x = false := by
  induction l with
  | nil => simp
  | cons a t ih =>
    simp only [List.any_cons, Bool.or_eq_false_iff, ih, List.forall_mem_cons]

theorem strContains_fileNotFound (s : String) :
    strContains ("file not found: " ++ s) "not found" = true := by
  unfold strContains
  rw [List.any_eq_true]
  refine ⟨5, List.mem_range.mpr ?_, ?_⟩
  · rw [strData_append, List.length_append]
    have h16 : ("file not found: " : String).data.length = 16 := rfl
    omega
  · rw [strData_append]
    have h16 : ("file not found: " : String).data =
        'f' :: 'i' :: 'l' :: 'e' :: ' ' :: 'n' :: 'o' :: 't' :: ' ' :: 'f' :: 'o' :: 'u' :: 'n'
          :: 'd' :: ':' :: ' ' :: [] := rfl
    rw [h16]
    simp only [List.cons_append, List.drop_succ_cons, List.drop_zero]
    simp [listPfx]

/-- The error a Get reports after its data file vanished is classified
not-found by the HTTP layer. -/
theorem errNotFound_getfail (s : String) :
    errNotFound (some (.wrap "failed to get document data: "
      (.wrap "failed to read document data: " (.doc .get ("file not found: " ++ s))))) = true := by
  simp only [errNotFound, Option.elim, Err.isNotFound, strContains_fileNotFound, Bool.or_true]

/-- Claim C3, counterexample.  The claim says that after a successful
Delete(year, id), Exists(year, id) is false, in particular when the id was
cached by a Store on the same instance.  Delete never removes the cache
entry, so Exists answers true from the cache even though data, metadata and
directory are gone from the disk. -/
theorem c3_delete_counterexample :
    ((((NewDocumentStore ".").Store envC sigma0 "2025" "aabbcc" [1, 2] metaC).ds.Delete
        ((NewDocumentStore ".").Store envC sigma0 "2025" "aabbcc" [1, 2] metaC).fs
        "2025" "aabbcc").2 = none) ∧
    (((NewDocumentStore ".").Store envC sigma0 "2025" "aabbcc" [1, 2] metaC).ds.Exists
        (((NewDocumentStore ".").Store envC sigma0 "2025" "aabbcc" [1, 2] metaC).ds.Delete
          ((NewDocumentStore ".").Store envC sigma0 "2025" "aabbcc" [1, 2] metaC).fs
          "2025" "aabbcc").1
        "2025" "aabbcc" = true) := by
  decide

/-- Claim C3, amended.  On a store rooted at ".", for a lowercase id whose
data file is stored at (year, id) in a well-formed disk state (no ancestor
of the data file is a regular file), a successful Delete(year, id) leaves
nothing under the leaf directory (the data and every language metadata
variant are gone) and removes the directory itself, and a subsequent
Get(year, id, lang) fails not-found for every lang; but Exists(year, id)
returns true exactly when the lowercased id is still in the in-memory
cache, which Delete never clears — so in the in-particular case of an id
cached by Store on the same instance, Exists returns true, not false. -/
theorem c3_delete_amended (ds : DocumentStore) (env : Env) (σ : FsState)
    (year docID lang : String)
    (hroot : ds.root = ".")
    (hlow : goToLower docID = docID)
    (hid : docID ≠ "")
    (hdata : (σ.files.lookup (calculatePaths year docID).DataPath).isSome = true)
    (hnopfx : ∀ e ∈ σ.files, strPfx (e.1 ++ "/") (calculatePaths year docID).DataPath = false)
    (hdel : (ds.Delete σ year docID).2 = none) :
    (∀ e ∈ (ds.Delete σ year docID).1.files,
        strPfx ((calculatePaths year docID).DirPath ++ "/") e.1 = false) ∧
    (ds.Delete σ year docID).1.dirs.contains (calculatePaths year docID).DirPath = false ∧
    (ds.Get env (ds.Delete σ year docID).1 year docID lang).data = none ∧
    errNotFound (ds.Get env (ds.Delete σ year docID).1 year docID lang).err = true ∧
    ds.Exists (ds.Delete σ year docID).1 year docID = (ds.cache.lookup docID).isSome := by
  obtain ⟨hDne, hDnd, hUnder⟩ := dirPath_facts year docID hid
  have hDPne := dataPath_ne_empty year docID
  have hrem1 : fssRemove ds.root σ (calculatePaths year docID).DataPath =
      ({ σ with files := dropFile σ.files (calculatePaths year docID).DataPath }, none) := by
    rw [hroot]
    exact fssRemove_dot_file hDPne hdata
  have hDeq0 : ds.Delete σ year docID =
      (match fssRemove ds.root
          ((ds.deleteMetaAll
            { σ with files := dropFile σ.files (calculatePaths year docID).DataPath }
            (calculatePaths year docID).DirPath).1)
          (calculatePaths year docID).DirPath with
        | (σ₃, some e) => (σ₃, some (.wrap "failed to remove document directory: " e))
        | (σ₃, none) => (σ₃, none)) := by
    simp only [DocumentStore.Delete]
    rw [hrem1]
  rcases hfin : fssRemove ds.root
      ((ds.deleteMetaAll
        { σ with files := dropFile σ.files (calculatePaths year docID).DataPath }
        (calculatePaths year docID).DirPath).1)
      (calculatePaths year docID).DirPath with ⟨σ₃, e3⟩
  rw [hfin] at hDeq0
  cases e3 with
  | some e =>
    rw [hDeq0] at hdel
    simp at hdel
  | none =>
    have hsub2 : ∀ e ∈ ((ds.deleteMetaAll
        { σ with files := dropFile σ.files (calculatePaths year docID).DataPath }
        (calculatePaths year docID).DirPath).1).files, e ∈ σ.files := by
      intro e he
      have h1 := deleteMetaAll_files_subset ds _ (calculatePaths year docID).DirPath e he
      exact List.mem_of_mem_filter h1
    have hnf : (((ds.deleteMetaAll
        { σ with files := dropFile σ.files (calculatePaths year docID).DataPath }
        (calculatePaths year docID).DirPath).1).files.lookup
          (calculatePaths year docID).DirPath).isSome = false := by
      cases hl : ((ds.deleteMetaAll
          { σ with files := dropFile σ.files (calculatePaths year docID).DataPath }
          (calculatePaths year docID).DirPath).1).files.lookup
            (calculatePaths year docID).DirPath with
      | none => rfl
      | some v =>
        have hm := mem_of_lookup_eq_some hl
        have hm2 := hsub2 _ hm
        have h3 : strPfx ((calculatePaths year docID).DirPath ++ "/")
            (calculatePaths year docID).DataPath = false := hnopfx _ hm2
        rw [h3] at hUnder
        exact Bool.noConfusion hUnder
    have hroot' : fssRemove "." ((ds.deleteMetaAll
        { σ with files := dropFile σ.files (calculatePaths year docID).DataPath }
        (calculatePaths year docID).DirPath).1) (calculatePaths year docID).DirPath = (σ₃, none) := by
      rw [← hroot]
      exact hfin
    obtain ⟨hchild, hfeq, hdirs3, _⟩ := fssRemove_dir_inv hDne hnf hroot'
    have hchf : ∀ e ∈ ((ds.deleteMetaAll
        { σ with files := dropFile σ.files (calculatePaths year docID).DataPath }
        (calculatePaths year docID).DirPath).1).files,
        strPfx ((calculatePaths year docID).DirPath ++ "/") e.1 = false := by
      unfold hasChild at hchild
      have h1 := (Bool.or_eq_false_iff.mp hchild).1
      exact (any_false_iff _ _).mp h1
    have hchd : ∀ d ∈ ((ds.deleteMetaAll
        { σ with files := dropFile σ.files (calculatePaths year docID).DataPath }
        (calculatePaths year docID).DirPath).1).dirs,
        strPfx ((calculatePaths year docID).DirPath ++ "/") d = false := by
      unfold hasChild at hchild
      have h1 := (Bool.or_eq_false_iff.mp hchild).2
      exact (any_false_iff _ _).mp h1
    have hnodata : osExists σ₃ (calculatePaths year docID).DataPath = false := by
      have hlk : σ₃.files.lookup (calculatePaths year docID).DataPath = none := by
        apply lookup_eq_none_of_nomem
        intro e he heq
        rw [hfeq] at he
        have h1 := hchf e he
        rw [heq, hUnder] at h1
        exact Bool.noConfusion h1
      have hdc : σ₃.dirs.contains (calculatePaths year docID).DataPath = false := by
        apply contains_false_of_nomem
        intro hm
        rw [hdirs3] at hm
        have hm2 := List.mem_of_mem_filter hm
        have h1 := hchd _ hm2
        rw [hUnder] at h1
        exact Bool.noConfusion h1
      have hpf : σ₃.files.any
          (fun e => strPfx (e.1 ++ "/") (calculatePaths year docID).DataPath) = false := by
        rw [hfeq]
        exact (any_false_iff _ _).mpr (fun e he => hnopfx e (hsub2 e he))
      unfold osExists statFound hasFilePfx
      rw [hlk, hdc, hpf]
      rfl
    have hrd : fssRead ds.root σ₃ (calculatePaths year docID).DataPath =
        .error (.doc .get ("file not found: " ++ (calculatePaths year docID).DataPath)) := by
      rw [hroot]
      exact fssRead_dot_notfound hDPne hnodata
    have hgq : ds.Get env σ₃ year docID lang =
        ⟨none, none, some (.wrap "failed to get document data: "
          (.wrap "failed to read document data: "
            (.doc .get ("file not found: " ++ (calculatePaths year docID).DataPath))))⟩ := by
      simp only [DocumentStore.Get, DocumentStore.getDocumentData, hlow, hrd]
    have hex3 : ds.Exists σ₃ year docID = (ds.cache.lookup docID).isSome := by
      unfold DocumentStore.Exists
      rw [hlow]
      cases hcl : (ds.cache.lookup docID).isSome with
      | true => simp [hcl]
      | false =>
        simp only [hcl, Bool.false_eq_true, if_false]
        rw [hroot, fssExists_dot hDPne]
        exact hnodata
    rw [hDeq0]
    refine ⟨?_, ?_, ?_, ?_, ?_⟩
    · intro e he
      rw [hfeq] at he
      exact hchf e he
    · show σ₃.dirs.contains (calculatePaths year docID).DirPath = false
      rw [hdirs3]
      apply contains_false_of_nomem
      intro hm
      have h1 := (List.mem_filter.mp hm).2
      simp at h1
    · show (ds.Get env σ₃ year docID lang).data = none
      rw [hgq]
    · show errNotFound (ds.Get env σ₃ year docID lang).err = true
      rw [hgq]
      exact errNotFound_getfail _
    · exact hex3

/-- Witness for the amended C3 theorem: store a document, delete it; the
disk is clean, Get is not-found, and Exists still answers from the cache. -/
theorem c3_delete_amended_witness :
    ((((NewDocumentStore ".").Store envC sigma0 "2025" "aabbcc" [1, 2] metaC).ds.Get envC
        ((((NewDocumentStore ".").Store envC sigma0 "2025" "aabbcc" [1, 2] metaC).ds.Delete
          ((NewDocumentStore ".").Store envC sigma0 "2025" "aabbcc" [1, 2] metaC).fs
          "2025" "aabbcc").1)
        "2025" "aabbcc" "fr").data = none) ∧
    (((NewDocumentStore ".").Store envC sigma0 "2025" "aabbcc" [1, 2] metaC).ds.Exists
        ((((NewDocumentStore ".").Store envC sigma0 "2025" "aabbcc" [1, 2] metaC).ds.Delete
          ((NewDocumentStore ".").Store envC sigma0 "2025" "aabbcc" [1, 2] metaC).fs
          "2025" "aabbcc").1)
        "2025" "aabbcc" =
      ((((NewDocumentStore ".").Store envC sigma0 "2025" "aabbcc" [1, 2] metaC).ds.cache.lookup
        "aabbcc").isSome)) := by
  have h := c3_delete_amended
    ((NewDocumentStore ".").Store envC sigma0 "2025" "aabbcc" [1, 2] metaC).ds envC
    ((NewDocumentStore ".").Store envC sigma0 "2025" "aabbcc" [1, 2] metaC).fs
    "2025" "aabbcc" "fr"
    (by decide) (by decide) (by decide) (by decide) (by decide) (by decide)
  exact ⟨h.2.2.1, h.2.2.2.2⟩

/-- Claim C4, counterexample.  The claim asserts that every public operation
lowercases the documentID so that two ids differing only in letter case
yield the identical storage path string.  Store, StoreMeta, Delete and
DeleteMeta do not lowercase the id, and calculatePaths embeds the id
verbatim in the first shard segment and in the leaf directory, so the two
case-variants of one id compute different data paths. -/
theorem c4_case_counterexample :
    ¬ ((calculatePaths "2025" "abcdef").DataPath = (calculatePaths "2025" "ABCDEF").DataPath) := by
  decide

/-- Claim C4, amended.  Only the retrieval side normalizes case: Get,
GetFromYear, GetMeta, GetMetaFromYear, Exists and ExistsFromYear lowercase
the documentID on entry, so any two ids with the same lowercase form are
interchangeable for them; the write and delete operations use the id
verbatim and the path function is case-sensitive, as the concrete pair of
case-variant ids shows. -/
theorem c4_case_amended :
    (∀ (ds : DocumentStore) (env : Env) (σ : FsState) (year id id' lang : String),
        goToLower id = goToLower id' →
        ds.Get env σ year id lang = ds.Get env σ year id' lang ∧
        ds.GetFromYear env σ year id lang = ds.GetFromYear env σ year id' lang ∧
        ds.GetMeta env σ year id lang = ds.GetMeta env σ year id' lang ∧
        ds.GetMetaFromYear env σ year id lang = ds.GetMetaFromYear env σ year id' lang ∧
        ds.Exists σ year id = ds.Exists σ year id' ∧
        ds.ExistsFromYear env σ year id = ds.ExistsFromYear env σ year id') ∧
    (calculatePaths "2025" "abcdef").DataPath ≠ (calculatePaths "2025" "ABCDEF").DataPath := by
  refine ⟨?_, by decide⟩
  intro ds env σ year id id' lang h
  refine ⟨?_, ?_, ?_, ?_, ?_, ?_⟩
  · simp only [DocumentStore.Get, h]
  · simp only [DocumentStore.GetFromYear, h]
  · simp only [DocumentStore.GetMeta, h]
  · simp only [DocumentStore.GetMetaFromYear, h]
  · simp only [DocumentStore.Exists, h]
  · simp only [DocumentStore.ExistsFromYear, h]

/-- Witness for the amended C4 theorem at the concrete case-variant pair
"aB" and "Ab". -/
theorem c4_case_amended_witness :
    (NewDocumentStore ".").Exists sigma0 "2025" "aB" =
      (NewDocumentStore ".").Exists sigma0 "2025" "Ab" ∧
    (NewDocumentStore ".").Get envC sigma0 "2025" "aB" "" =
      (NewDocumentStore ".").Get envC sigma0 "2025" "Ab" "" := by
  have h := c4_case_amended.1 (NewDocumentStore ".") envC sigma0 "2025" "aB" "Ab" "" (by decide)
  exact ⟨h.2.2.2.2.1, h.1⟩

/-- Claim C5: a Store call for an id that is already cached, or whose data
path already exists on disk at the resolved year, fails with the
"document already exists" conflict error and changes neither the cache nor
the disk, so the previously stored bytes are untouched. -/
theorem c5_store_conflict (ds : DocumentStore) (env : Env) (σ : FsState)
    (year docID : String) (data : Bytes) (meta : Metaer)
    (h : (ds.cache.lookup docID).isSome = true ∨
        fssExists ds.root σ (calculatePaths (if year = "" then env.now else year) docID).DataPath = true) :
    (ds.Store env σ year docID data meta).err = some (.doc .store "document already exists") ∧
    (ds.Store env σ year docID data meta).ds = ds ∧
    (ds.Store env σ year docID data meta).fs = σ := by
  unfold DocumentStore.Store
  cases hcc : (ds.cache.lookup docID).isSome with
  | true => simp [hcc]
  | false =>
    have hex : fssExists ds.root σ
        (calculatePaths (if year = "" then env.now else year) docID).DataPath = true := by
      rcases h with h1 | h2
      · rw [hcc] at h1
        exact absurd h1 (by decide)
      · exact h2
    simp [hcc, hex]

/-- Witness for C5: storing the same id twice on one store instance makes
the second call fail with the conflict error and leave the state unchanged. -/
theorem c5_store_conflict_witness :
    (((NewDocumentStore ".").Store envC sigma0 "2025" "aabbcc" [1] metaC).ds.Store envC
        ((NewDocumentStore ".").Store envC sigma0 "2025" "aabbcc" [1] metaC).fs
        "2025" "aabbcc" [1] metaC).err = some (.doc .store "document already exists") ∧
    (((NewDocumentStore ".").Store envC sigma0 "2025" "aabbcc" [1] metaC).ds.Store envC
        ((NewDocumentStore ".").Store envC sigma0 "2025" "aabbcc" [1] metaC).fs
        "2025" "aabbcc" [1] metaC).ds =
      ((NewDocumentStore ".").Store envC sigma0 "2025" "aabbcc" [1] metaC).ds ∧
    (((NewDocumentStore ".").Store envC sigma0 "2025" "aabbcc" [1] metaC).ds.Store envC
        ((NewDocumentStore ".").Store envC sigma0 "2025" "aabbcc" [1] metaC).fs
        "2025" "aabbcc" [1] metaC).fs =
      ((NewDocumentStore ".").Store envC sigma0 "2025" "aabbcc" [1] metaC).fs :=
  c5_store_conflict _ envC _ "2025" "aabbcc" [1] metaC (Or.inl (by decide))

/-- Claim C7: when the data path of (year, id) does not exist, StoreMeta
fails with the "document not found" error, writes nothing, and the error is
classified not-found by the HTTP layer. -/
theorem c7_storemeta_requires_document (ds : DocumentStore) (env : Env) (σ : FsState)
    (year docID : String) (meta : Metaer) (lang : String)
    (h : fssExists ds.root σ (calculatePaths (if year = "" then env.now else year) docID).DataPath = false) :
    (ds.StoreMeta env σ year docID meta lang).err = some (.doc .store "document not found") ∧
    (ds.StoreMeta env σ year docID meta lang).fs = σ ∧
    errNotFound (ds.StoreMeta env σ year docID meta lang).err = true := by
  have h1 : ds.StoreMeta env σ year docID meta lang = ⟨σ, "", some (.doc .store "document not found")⟩ := by
    unfold DocumentStore.StoreMeta
    simp [h]
  rw [h1]
  refine ⟨rfl, rfl, ?_⟩
  show errNotFound (some (.doc .store "document not found")) = true
  decide

/-- Witness for C7: a StoreMeta on an empty disk, before any Store, fails
not-found. -/
theorem c7_storemeta_requires_document_witness :
    ((NewDocumentStore ".").StoreMeta envC sigma0 "2025" "aabbcc" metaC "fr").err =
      some (.doc .store "document not found") ∧
    ((NewDocumentStore ".").StoreMeta envC sigma0 "2025" "aabbcc" metaC "fr").fs = sigma0 ∧
    errNotFound ((NewDocumentStore ".").StoreMeta envC sigma0 "2025" "aabbcc" metaC "fr").err = true :=
  c7_storemeta_requires_document _ envC _ "2025" "aabbcc" metaC "fr" (by decide)

/-- mkdirAll never touches the regular files or the fault set. -/
theorem mkdirAll_files {σ : FsState} {d : String} {σ₁ : FsState}
    (h : mkdirAll σ d = some σ₁) : σ₁.files = σ.files ∧ σ₁.wfail = σ.wfail := by
  unfold mkdirAll at h
  by_cases h1 : d = "." ∨ d = ""
  · rw [if_pos h1] at h
    cases h
    exact ⟨rfl, rfl⟩
  · rw [if_neg h1] at h
    by_cases h2 : (pathAncestors d).any (fun a => (σ.files.lookup a).isSome)
    · rw [if_pos h2] at h
      exact Option.noConfusion h
    · rw [if_neg h2] at h
      cases h
      exact ⟨rfl, rfl⟩

/-- fssWrite reduces to a directory-creation failure. -/
theorem fssWrite_eq_mkfail {root : String} {σ : FsState} {p : String} {d : Bytes}
    (hm : mkdirAll σ (goDir (filePath root p)) = none) :
    fssWrite root σ p d = (σ, some (.wrap "failed to create directory: " (.other "mkdir"))) := by
  simp only [fssWrite, hm]

/-- fssWrite reduces to a WriteFile failure. -/
theorem fssWrite_eq_wfail {root : String} {σ : FsState} {p : String} {d : Bytes} {σ₁ : FsState}
    (hm : mkdirAll σ (goDir (filePath root p)) = some σ₁)
    (hc : (σ₁.dirs.contains (filePath root p) || σ₁.wfail.contains (filePath root p)) = true) :
    fssWrite root σ p d = (σ₁, some (.wrap "failed to write file: " (.other "write"))) := by
  simp only [fssWrite, hm, hc, if_true]

/-- fssWrite reduces to a successful write. -/
theorem fssWrite_eq_ok {root : String} {σ : FsState} {p : String} {d : Bytes} {σ₁ : FsState}
    (hm : mkdirAll σ (goDir (filePath root p)) = some σ₁)
    (hc : (σ₁.dirs.contains (filePath root p) || σ₁.wfail.contains (filePath root p)) = false) :
    fssWrite root σ p d = ({ σ₁ with files := upsertFile σ₁.files (filePath root p) d }, none) := by
  simp only [fssWrite, hm, hc]
  rfl

/-- A successful fssWrite stores the data under the rooted path. -/
theorem fssWrite_ok_lookup_self {root : String} {σ : FsState} {p : String} {d : Bytes}
    (h : (fssWrite root σ p d).2 = none) :
    (fssWrite root σ p d).1.files.lookup (filePath root p) = some d := by
  cases hm : mkdirAll σ (goDir (filePath root p)) with
  | none =>
    rw [fssWrite_eq_mkfail hm] at h
    exact Option.noConfusion h
  | some σ₁ =>
    cases hc : (σ₁.dirs.contains (filePath root p) || σ₁.wfail.contains (filePath root p)) with
    | true =>
      rw [fssWrite_eq_wfail hm hc] at h
      exact Option.noConfusion h
    | false =>
      rw [fssWrite_eq_ok hm hc]
      show List.lookup (filePath root p) (upsertFile σ₁.files (filePath root p) d) = some d
      simp [upsertFile, List.lookup]

/-- A failed fssWrite leaves the regular files unchanged (only directories
may have been created by the MkdirAll that ran first). -/
theorem fssWrite_fail_files {root : String} {σ : FsState} {p : String} {d : Bytes}
    (h : (fssWrite root σ p d).2 ≠ none) :
    (fssWrite root σ p d).1.files = σ.files := by
  cases hm : mkdirAll σ (goDir (filePath root p)) with
  | none =>
    rw [fssWrite_eq_mkfail hm]
  | some σ₁ =>
    cases hc : (σ₁.dirs.contains (filePath root p) || σ₁.wfail.contains (filePath root p)) with
    | true =>
      rw [fssWrite_eq_wfail hm hc]
      exact (mkdirAll_files hm).1
    | false =>
      rw [fssWrite_eq_ok hm hc] at h
      exact absurd rfl h

/-- On a store rooted at ".", a Get whose data file is on disk returns
exactly those bytes, whatever the metadata step does. -/
theorem get_data_of_lookup {ds : DocumentStore} {env : Env} {σ : FsState}
    {year docID lang : String} {data : Bytes}
    (hroot : ds.root = ".") (hlow : goToLower docID = docID)
    (h : σ.files.lookup (calculatePaths year docID).DataPath = some data) :
    (ds.Get env σ year docID lang).data = some data := by
  have hread : fssRead ds.root σ (calculatePaths year docID).DataPath = .ok data := by
    rw [hroot]
    exact fssRead_dot_ok (dataPath_ne_empty year docID) h
  simp only [DocumentStore.Get, DocumentStore.getDocumentData, hlow, hread]
  cases hgm : ds.getMetaWithYear env σ year docID lang <;> simp [hgm]

/-- Claim C6: the metadata overlay rule of getMetaWithYear on a store rooted
at "." whose default metadata file holds bytes that unmarshal: an empty
language reads the default file; a nonempty language whose suffixed file
does not exist reads the default file in full, with no error merely because
the variant is absent; a nonempty language whose suffixed file exists reads
exactly that file. -/
theorem c6_meta_overlay (ds : DocumentStore) (env : Env) (σ : FsState)
    (year docID : String) (bDef mDef : Bytes)
    (hroot : ds.root = ".")
    (hdef : σ.files.lookup (calculatePaths year docID).MetaPath = some bDef)
    (hU : env.unmarshal bDef = some mDef) :
    ds.getMetaWithYear env σ year docID "" = .ok mDef ∧
    (∀ lang, lang ≠ "" →
        fssExists ds.root σ ((calculatePaths year docID).MetaPath ++ "." ++ lang) = false →
        ds.getMetaWithYear env σ year docID lang = .ok mDef) ∧
    (∀ lang bL mL, lang ≠ "" →
        σ.files.lookup ((calculatePaths year docID).MetaPath ++ "." ++ lang) = some bL →
        env.unmarshal bL = some mL →
        ds.getMetaWithYear env σ year docID lang = .ok mL) := by
  have hmp := metaPath_ne_empty year docID
  have hread : fssRead "." σ (calculatePaths year docID).MetaPath = .ok bDef :=
    fssRead_dot_ok hmp hdef
  refine ⟨?_, ?_, ?_⟩
  · unfold DocumentStore.getMetaWithYear
    rw [hroot]
    simp [hread, hU]
  · intro lang hl hab
    rw [hroot] at hab
    unfold DocumentStore.getMetaWithYear
    rw [hroot]
    simp [hl, hab, hread, hU]
  · intro lang bL mL hl hbL hum
    have hlmp : (calculatePaths year docID).MetaPath ++ "." ++ lang ≠ "" :=
      append_ne_empty_left _ (append_ne_empty_right _ (by decide))
    have hex : fssExists "." σ ((calculatePaths year docID).MetaPath ++ "." ++ lang) = true := by
      rw [fssExists_dot hlmp]
      exact osExists_of_lookup_isSome (by simp [hbL])
    have hreadL : fssRead "." σ ((calculatePaths year docID).MetaPath ++ "." ++ lang) = .ok bL :=
      fssRead_dot_ok hlmp hbL
    unfold DocumentStore.getMetaWithYear
    rw [hroot]
    simp [hl, hex, hlmp, hreadL, hum]

/-- Witness for C6: with a default and a "fr" variant stored, lang "" and
the never-stored "de" return the default in full, "fr" returns the variant. -/
theorem c6_meta_overlay_witness :
    (NewDocumentStore ".").getMetaWithYear envC sigmaMeta "2025" "aabbcc" "" = .ok [1] ∧
    (NewDocumentStore ".").getMetaWithYear envC sigmaMeta "2025" "aabbcc" "de" = .ok [1] ∧
    (NewDocumentStore ".").getMetaWithYear envC sigmaMeta "2025" "aabbcc" "fr" = .ok [2] := by
  have h := c6_meta_overlay (NewDocumentStore ".") envC sigmaMeta "2025" "aabbcc" [1] [1]
    rfl (by decide) rfl
  exact ⟨h.1, h.2.1 "de" (by decide) (by decide), h.2.2 "fr" [2] [2] (by decide) (by decide) rfl⟩

/-- Claim C8: when Store gets past its existence checks, writes the payload
successfully, and then the metadata marshal fails or the metadata write
fails, Store reports an error and does not record the cache entry, yet the
payload bytes stay on disk and a subsequent Get still returns them (with its
own metadata error): the state "data exists, metadata missing" is reachable
and detectable, not rolled back. -/
theorem c8_metafail_visible (ds : DocumentStore) (env : Env) (σ : FsState)
    (year docID lang : String) (data : Bytes) (meta : Metaer)
    (hroot : ds.root = ".")
    (hlow : goToLower docID = docID)
    (hyne : year ≠ "")
    (hcache : (ds.cache.lookup docID).isSome = false)
    (hnodata : fssExists ds.root σ (calculatePaths year docID).DataPath = false)
    (hwrite : (fssWrite ds.root σ (calculatePaths year docID).DataPath data).2 = none)
    (hfail : meta.marshal = none ∨
      ∀ mb, meta.marshal = some mb →
        (fssWrite ds.root (fssWrite ds.root σ (calculatePaths year docID).DataPath data).1
            (calculatePaths year docID).MetaPath mb).2 ≠ none) :
    (ds.Store env σ year docID data meta).err ≠ none ∧
    (ds.Store env σ year docID data meta).ds = ds ∧
    (ds.Store env σ year docID data meta).fs.files.lookup
      (calculatePaths year docID).DataPath = some data ∧
    (ds.Get env (ds.Store env σ year docID data meta).fs year docID lang).data = some data := by
  have hDPne := dataPath_ne_empty year docID
  have hfp : filePath ds.root (calculatePaths year docID).DataPath =
      (calculatePaths year docID).DataPath := by
    rw [hroot]
    exact goJoin_dot_left hDPne
  have hlk1 : (fssWrite ds.root σ (calculatePaths year docID).DataPath data).1.files.lookup
      (calculatePaths year docID).DataPath = some data := by
    have h0 := @fssWrite_ok_lookup_self ds.root σ (calculatePaths year docID).DataPath data hwrite
    rw [hfp] at h0
    exact h0
  have hStore : (ds.Store env σ year docID data meta).err ≠ none ∧
      (ds.Store env σ year docID data meta).ds = ds ∧
      (ds.Store env σ year docID data meta).fs.files.lookup
        (calculatePaths year docID).DataPath = some data := by
    unfold DocumentStore.Store
    rw [if_neg hyne]
    simp only [hcache, hnodata, Bool.false_eq_true, if_false]
    rcases hw : fssWrite ds.root σ (calculatePaths year docID).DataPath data with ⟨σ₁, we⟩
    have hwe : we = none := by
      rw [hw] at hwrite
      exact hwrite
    subst hwe
    cases hm : meta.marshal with
    | none =>
      refine ⟨by simp, rfl, ?_⟩
      show σ₁.files.lookup (calculatePaths year docID).DataPath = some data
      rw [hw] at hlk1
      exact hlk1
    | some mb =>
      dsimp only
      have hfw : (fssWrite ds.root σ₁ (calculatePaths year docID).MetaPath mb).2 ≠ none := by
        rcases hfail with h1 | h2
        · rw [hm] at h1
          exact absurd h1 (Option.noConfusion ·)
        · have h3 := h2 mb hm
          rw [hw] at h3
          exact h3
      cases hw2 : fssWrite ds.root σ₁ (calculatePaths year docID).MetaPath mb with
      | mk σ₂ we2 =>
        cases we2 with
        | none =>
          rw [hw2] at hfw
          exact absurd rfl hfw
        | some e2 =>
          refine ⟨by simp, rfl, ?_⟩
          show σ₂.files.lookup (calculatePaths year docID).DataPath = some data
          have hff : σ₂.files = σ₁.files := by
            have h4 := @fssWrite_fail_files ds.root σ₁ (calculatePaths year docID).MetaPath mb
              (by rw [hw2]; simp)
            rw [hw2] at h4
            exact h4
          rw [hff]
          rw [hw] at hlk1
          exact hlk1
  exact ⟨hStore.1, hStore.2.1, hStore.2.2,
    get_data_of_lookup hroot hlow hStore.2.2⟩

/-- Witness for C8 along both failing branches: a metadata marshal failure
and an injected metadata write failure; in both runs Store errors, the cache
stays empty, and the payload remains readable through Get. -/
theorem c8_metafail_visible_witness :
    (((NewDocumentStore ".").Store envC sigma0 "2025" "aabbcc" [7] metaBad).err ≠ none ∧
      ((NewDocumentStore ".").Store envC sigma0 "2025" "aabbcc" [7] metaBad).ds = NewDocumentStore "." ∧
      ((NewDocumentStore ".").Store envC sigma0 "2025" "aabbcc" [7] metaBad).fs.files.lookup
        (calculatePaths "2025" "aabbcc").DataPath = some [7] ∧
      ((NewDocumentStore ".").Get envC
        ((NewDocumentStore ".").Store envC sigma0 "2025" "aabbcc" [7] metaBad).fs
        "2025" "aabbcc" "").data = some [7]) ∧
    (((NewDocumentStore ".").Store envC sigmaFailMeta "2025" "aabbcc" [7] metaC).err ≠ none ∧
      ((NewDocumentStore ".").Store envC sigmaFailMeta "2025" "aabbcc" [7] metaC).fs.files.lookup
        (calculatePaths "2025" "aabbcc").DataPath = some [7] ∧
      ((NewDocumentStore ".").Get envC
        ((NewDocumentStore ".").Store envC sigmaFailMeta "2025" "aabbcc" [7] metaC).fs
        "2025" "aabbcc" "").data = some [7]) := by
  have h1 := c8_metafail_visible (NewDocumentStore ".") envC sigma0 "2025" "aabbcc" "" [7] metaBad
    rfl (by decide) (by decide) (by decide) (by decide) (by decide) (Or.inl rfl)
  have h2 := c8_metafail_visible (NewDocumentStore ".") envC sigmaFailMeta "2025" "aabbcc" "" [7] metaC
    rfl (by decide) (by decide) (by decide) (by decide) (by decide)
    (Or.inr (fun mb hmb => by cases hmb; decide))
  exact ⟨⟨h1.1, h1.2.1, h1.2.2.1, h1.2.2.2⟩, ⟨h2.1, h2.2.2.1, h2.2.2.2⟩⟩

/-- Claim C9, counterexample.  The claim says the segment for token n is the
lowercased n-th character of the identifier under 1-based counting whenever
n is at most its length, and that the generator never crashes.  The code
indexes id[n], the character at 0-based offset n: for n = 1 and id "ab" it
selects "b" rather than "a", and for n = 2 = len(id) the guard n > len(id)
does not fire and id[2] is an out-of-range index, a runtime crash (modelled
as none). -/
theorem c9_resdirer_counterexample :
    getResDirer 1 "ab" = some "b" ∧ getResDirer 2 "ab" = none := by
  decide

/-- Claim C9, amended.  For a positive token n: an offset n greater than the
identifier length yields the empty (skipped) segment; at n equal to the
length the generator crashes with an out-of-range index; below the length
the segment is the character at 0-based offset n — the (n+1)-th character
under 1-based counting, matching the documented convention that the
resource id carries one leading sentinel byte — mapped through the OR 0x20
lowercase trick. -/
theorem c9_resdirer_amended (n : Nat) (s : String) (_hn : 1 ≤ n) :
    (s.data.length < n → getResDirer n s = some "") ∧
    (n = s.data.length → getResDirer n s = none) ∧
    (∀ c, s.data[n]? = some c → getResDirer n s = some (String.singleton (orLowerChar c))) := by
  refine ⟨?_, ?_, ?_⟩
  · intro h
    unfold getResDirer
    rw [if_pos h]
  · intro h
    have hno : s.data[n]? = none := by
      apply List.getElem?_eq_none
      omega
    unfold getResDirer
    rw [if_neg (by omega), hno]
  · intro c hc
    have hlt : n < s.data.length := by
      by_contra hge
      rw [List.getElem?_eq_none (by omega)] at hc
      exact Option.noConfusion hc
    unfold getResDirer
    rw [if_neg (by omega), hc]

/-- Witness for the amended C9 theorem on the identifier "xyz": token 4 is
skipped, token 3 crashes, token 2 selects the character at offset 2. -/
theorem c9_resdirer_amended_witness :
    getResDirer 4 "xyz" = some "" ∧ getResDirer 3 "xyz" = none ∧ getResDirer 2 "xyz" = some "z" := by
  refine ⟨(c9_resdirer_amended 4 "xyz" (by decide)).1 (by decide),
    (c9_resdirer_amended 3 "xyz" (by decide)).2.1 (by decide), ?_⟩
  rw [(c9_resdirer_amended 2 "xyz" (by decide)).2.2 'z' (by decide)]
  decide

/-- Claim C10: a fresh DocumentStore has both lookback depths at 0 and an
empty cache, the setters reject out-of-range values without changing the
field, the backward walk with depth 0 examines no year at all (it fails
before checking even the start year), and consequently GetFromYear,
GetMetaFromYear and ExistsFromYear answer not-found / false for every id
that is not cached, whatever is on disk. -/
theorem c10_zero_lookback_defaults :
    (∀ rootPath : String, (NewDocumentStore rootPath).lookbackYears = 0 ∧
        (NewDocumentStore rootPath).existbackYears = 0 ∧ (NewDocumentStore rootPath).cache = []) ∧
    (∀ (ds : DocumentStore) (v : Int), v ≤ 0 ∨ v > 1000 →
        ds.SetLookbackYears v = ds ∧ ds.SetExistbackYears v = ds) ∧
    (∀ (root : String) (σ : FsState) (docID cur : String) (start : Int) (i : Nat),
        fdyLoop root σ docID start cur i 0 = .error (.doc .get "document not found")) ∧
    (∀ (ds : DocumentStore) (env : Env) (σ : FsState) (year docID lang : String),
        ds.lookbackYears = 0 → ds.cache.lookup (goToLower docID) = none →
        ∃ e, ds.GetFromYear env σ year docID lang =
            ⟨none, none, "", some (.wrap "document not found: " e)⟩ ∧
          (Err.wrap "document not found: " e).isNotFound = true) ∧
    (∀ (ds : DocumentStore) (env : Env) (σ : FsState) (year docID lang : String),
        ds.lookbackYears = 0 → ds.cache.lookup (goToLower docID) = none →
        ∃ e, ds.GetMetaFromYear env σ year docID lang =
            ⟨none, "", some (.wrap "document not found: " e)⟩) ∧
    (∀ (ds : DocumentStore) (env : Env) (σ : FsState) (year docID : String),
        ds.existbackYears = 0 → ds.cache.lookup (goToLower docID) = none →
        ds.ExistsFromYear env σ year docID = ("", false)) := by
  have hfind : ∀ (ds : DocumentStore) (env : Env) (σ : FsState) (year docID : String)
      (K : Int), K = 0 →
      ∃ e, ds.findDocumentYear env σ year docID K = .error e := by
    intro ds env σ year docID K hK
    subst hK
    simp only [DocumentStore.findDocumentYear]
    cases hA : goAtoi (if year ≠ "" then year else env.now) with
    | none => exact ⟨.wrap "invalid year: " (.other "atoi"), rfl⟩
    | some start => exact ⟨.doc .get "document not found", rfl⟩
  refine ⟨fun r => ⟨rfl, rfl, rfl⟩, ?_, fun root σ docID cur start i => rfl, ?_, ?_, ?_⟩
  · intro ds v h
    constructor
    · unfold DocumentStore.SetLookbackYears
      rw [if_pos h]
    · unfold DocumentStore.SetExistbackYears
      rw [if_pos h]
  · intro ds env σ year docID lang hlb hc
    obtain ⟨e, he⟩ := hfind ds env σ year (goToLower docID) ds.lookbackYears hlb
    refine ⟨e, ?_, ?_⟩
    · simp only [DocumentStore.GetFromYear, hc, he]
    · simp only [Err.isNotFound, Bool.or_eq_true]
      left
      decide
  · intro ds env σ year docID lang hlb hc
    obtain ⟨e, he⟩ := hfind ds env σ year (goToLower docID) ds.lookbackYears hlb
    exact ⟨e, by simp only [DocumentStore.GetMetaFromYear, hc, he]⟩
  · intro ds env σ year docID heb hc
    obtain ⟨e, he⟩ := hfind ds env σ year (goToLower docID) ds.existbackYears heb
    simp only [DocumentStore.ExistsFromYear, hc, he]

/-- Witness for C10 on a fresh store: the zero defaults and a concrete
failed probe and fetch. -/
theorem c10_zero_lookback_defaults_witness :
    (NewDocumentStore "arch").lookbackYears = 0 ∧
    (NewDocumentStore "arch").SetLookbackYears 1001 = NewDocumentStore "arch" ∧
    (NewDocumentStore "arch").ExistsFromYear envC sigma0 "2025" "aabbcc" = ("", false) := by
  refine ⟨(c10_zero_lookback_defaults.1 "arch").1, ?_, ?_⟩
  · exact (c10_zero_lookback_defaults.2.1 (NewDocumentStore "arch") 1001 (Or.inr (by decide))).1
  · exact c10_zero_lookback_defaults.2.2.2.2.2 (NewDocumentStore "arch") envC sigma0 "2025"
      "aabbcc" rfl rfl

end Archives
